import Mathlib

/-!
Verification development for the convention-driven backend framework:
a shallow embedding of the route discovery/matching/dispatch pipeline
(`src/routing/endpoints.py`) and of the type-symbol index / translator
backing code generation (`src/orchestrator/gen_ts_types.py`), together
with theorems about the embedded definitions.

Python `dict`s are modelled as association lists with first-key-wins
lookup and insert-preserves-first-position update, matching CPython
insertion-order semantics.  Python strings are Lean `String`s compared
by code points.  Filesystem paths are modelled structurally (directory
components plus filename) relative to the scanned root.
-/

/-- Python dict lookup (`d.get(k)`): first matching key wins; association
lists built by `pyDictInsert` have unique keys, as in CPython. -/
def pyDictGet {α : Type} (d : List (String × α)) (k : String) : Option α :=
  match d with
  | [] => none
  | (k', v) :: rest => if k' = k then some v else pyDictGet rest k

/-- Python dict assignment (`d[k] = v`): updates the value in place when the
key exists (keeping its original insertion position), else appends. -/
def pyDictInsert {α : Type} (d : List (String × α)) (k : String) (v : α) :
    List (String × α) :=
  match d with
  | [] => [(k, v)]
  | (k', v') :: rest =>
    if k' = k then (k', v) :: rest else (k', v') :: pyDictInsert rest k v

/-- Python `d.setdefault(k, v)`: inserts only when the key is absent. -/
def pySetdefault {α : Type} (d : List (String × α)) (k : String) (v : α) :
    List (String × α) :=
  match pyDictGet d k with
  | some _ => d
  | none => pyDictInsert d k v

/-- Python `dict(pairs)`: left-to-right insertion of the pairs. -/
def pyDictOfPairs {α : Type} (pairs : List (String × α)) : List (String × α) :=
  pairs.foldl (fun acc kv => pyDictInsert acc kv.1 kv.2) []

/-- Python `d.update(other)`: insert every pair of `other` in order. -/
def pyDictUpdate {α : Type} (d other : List (String × α)) : List (String × α) :=
  other.foldl (fun acc kv => pyDictInsert acc kv.1 kv.2) d

/-- Code-point lexicographic `≤` on character lists, as Python compares
strings. -/
def charListLe : List Char → List Char → Bool
  | [], _ => true
  | _ :: _, [] => false
  | a :: as, b :: bs => if a = b then charListLe as bs else decide (a < b)

/-- Python string `≤` (code-point lexicographic). -/
def pyStrLe (a b : String) : Bool :=
  charListLe a.toList b.toList

theorem charListLe_total (a b : List Char) :
    charListLe a b = true ∨ charListLe b a = true := by
  induction a generalizing b with
  | nil => left; rfl
  | cons x xs ih =>
    cases b with
    | nil => right; rfl
    | cons y ys =>
      by_cases hxy : x = y
      · subst hxy
        rcases ih ys with h | h
        · left; simp [charListLe, h]
        · right; simp [charListLe, h]
      · rcases lt_trichotomy x y with h | h | h
        · left; simp [charListLe, hxy, h]
        · exact absurd h hxy
        · right
          have hyx : y ≠ x := fun he => hxy he.symm
          simp [charListLe, hyx, h]

theorem charListLe_trans (a b c : List Char)
    (hab : charListLe a b = true) (hbc : charListLe b c = true) :
    charListLe a c = true := by
  induction a generalizing b c with
  | nil => rfl
  | cons x xs ih =>
    cases b with
    | nil => simp [charListLe] at hab
    | cons y ys =>
      cases c with
      | nil => simp [charListLe] at hbc
      | cons z zs =>
        by_cases hxy : x = y
        · subst hxy
          by_cases hyz : x = z
          · subst hyz
            simp [charListLe] at hab hbc ⊢
            exact ih ys zs hab hbc
          · simp [charListLe, hyz] at hbc ⊢
            exact hbc
        · simp [charListLe, hxy] at hab
          by_cases hyz : y = z
          · subst hyz
            simp [charListLe, hxy]
            exact hab
          · simp [charListLe, hyz] at hbc
            have hxz : x < z := lt_trans hab hbc
            have hne : x ≠ z := ne_of_lt hxz
            simp [charListLe, hne]
            exact hxz

theorem pyStrLe_total (a b : String) : pyStrLe a b = true ∨ pyStrLe b a = true :=
  charListLe_total a.toList b.toList

theorem pyStrLe_trans (a b c : String) (hab : pyStrLe a b = true)
    (hbc : pyStrLe b c = true) : pyStrLe a c = true :=
  charListLe_trans a.toList b.toList c.toList hab hbc

/-- One step of a stable insertion sort: insert `a` before the first element
it compares `le` to. -/
def pyOrderedInsert {α : Type} (le : α → α → Bool) (a : α) : List α → List α
  | [] => [a]
  | b :: l => if le a b then a :: b :: l else b :: pyOrderedInsert le a l

/-- Stable sort by `le`.  Python `list.sort` is a stable sort; every stable
sort with the same (total, transitive) comparison computes the same list, so
this insertion sort is extensionally the Python sort. -/
def pySortStable {α : Type} (le : α → α → Bool) : List α → List α
  | [] => []
  | a :: l => pyOrderedInsert le a (pySortStable le l)

theorem mem_pyOrderedInsert {α : Type} (le : α → α → Bool) (a x : α)
    (l : List α) : x ∈ pyOrderedInsert le a l ↔ x = a ∨ x ∈ l := by
  induction l with
  | nil => simp [pyOrderedInsert]
  | cons b bl ih =>
    by_cases h : le a b = true
    · simp [pyOrderedInsert, h]
    · simp [pyOrderedInsert, h, ih]
      tauto

theorem mem_pySortStable {α : Type} (le : α → α → Bool) (x : α) (l : List α) :
    x ∈ pySortStable le l ↔ x ∈ l := by
  induction l with
  | nil => simp [pySortStable]
  | cons a al ih =>
    simp [pySortStable, mem_pyOrderedInsert, ih]

theorem pairwise_pyOrderedInsert {α : Type} (le : α → α → Bool)
    (htot : ∀ a b, le a b = true ∨ le b a = true)
    (htrans : ∀ a b c, le a b = true → le b c = true → le a c = true)
    (a : α) (l : List α) (h : l.Pairwise (fun x y => le x y = true)) :
    (pyOrderedInsert le a l).Pairwise (fun x y => le x y = true) := by
  induction l with
  | nil => simp [pyOrderedInsert]
  | cons b bl ih =>
    rcases List.pairwise_cons.mp h with ⟨hb, hbl⟩
    by_cases hab : le a b = true
    · have heq : pyOrderedInsert le a (b :: bl) = a :: b :: bl := by
        simp [pyOrderedInsert, hab]
      rw [heq]
      refine List.pairwise_cons.mpr ⟨?_, h⟩
      intro y hy
      rcases List.mem_cons.mp hy with rfl | hy
      · exact hab
      · exact htrans a b y hab (hb y hy)
    · have heq : pyOrderedInsert le a (b :: bl) = b :: pyOrderedInsert le a bl := by
        simp [pyOrderedInsert, hab]
      rw [heq]
      refine List.pairwise_cons.mpr ⟨?_, ih hbl⟩
      intro y hy
      rcases (mem_pyOrderedInsert le a y bl).mp hy with rfl | hy
      · rcases htot y b with hh | hh
        · exact absurd hh hab
        · exact hh
      · exact hb y hy

theorem pairwise_pySortStable {α : Type} (le : α → α → Bool)
    (htot : ∀ a b, le a b = true ∨ le b a = true)
    (htrans : ∀ a b c, le a b = true → le b c = true → le a c = true)
    (l : List α) :
    (pySortStable le l).Pairwise (fun x y => le x y = true) := by
  induction l with
  | nil => simp [pySortStable]
  | cons a al ih =>
    exact pairwise_pyOrderedInsert le htot htrans a (pySortStable le al) ih

/-- Python `s.startswith(p)`, computed on the character lists so that the
kernel can evaluate it. -/
def pyStartsWith (s p : String) : Bool :=
  p.toList.isPrefixOf s.toList

/-- Python `s.endswith(p)`, computed on the character lists. -/
def pyEndsWith (s p : String) : Bool :=
  p.toList.reverse.isPrefixOf s.toList.reverse

/-- Python `s[n:]`. -/
def pyDrop (s : String) (n : Nat) : String :=
  String.mk (s.toList.drop n)

/-- Python `s[:-n]` (for `n ≤ len(s)`). -/
def pyDropRight (s : String) (n : Nat) : String :=
  String.mk (s.toList.take (s.toList.length - n))

/-- Python `s.strip()` (whitespace at both ends removed). -/
def pyTrim (s : String) : String :=
  String.mk
    (((s.toList.dropWhile Char.isWhitespace).reverse.dropWhile
      Char.isWhitespace).reverse)

/-- Python `s[0].isdigit()` guarded by nonemptiness (ASCII digits; the
route names in play are ASCII). -/
def pyFrontIsDigit (s : String) : Bool :=
  match s.toList with
  | [] => false
  | c :: _ => c.isDigit

/-- Helper for `pySplitOnChar`: accumulate the current piece (reversed). -/
def pySplitOnCharAux (c : Char) : List Char → List Char → List (List Char)
  | [], acc => [acc.reverse]
  | x :: xs, acc =>
    if x = c then acc.reverse :: pySplitOnCharAux c xs []
    else pySplitOnCharAux c xs (x :: acc)

/-- Python `s.split(c)` for a single-character separator. -/
def pySplitOnChar (c : Char) (s : String) : List String :=
  (pySplitOnCharAux c s.toList []).map (fun l => String.mk l)

/-- Python `sep.join(parts)`. -/
def pyJoin (sep : String) : List String → String
  | [] => ""
  | [s] => s
  | s :: rest => s ++ sep ++ pyJoin sep rest

/-- A discovered endpoint file, relative to the scanned API directory:
directory components (`rel.parent.parts`) plus the filename.  These are the
paths produced by `api_dir.rglob("*.py")` in `_build_route_table`. -/
structure RelPath where
  dirs : List String
  filename : String
deriving DecidableEq, Repr

/-- Python `Path.stem` for the `*.py` filenames delivered by `rglob`:
the filename with its final `.py` suffix removed (a bare `.py` dotfile has
an empty suffix and keeps its name). -/
def pathStem (name : String) : String :=
  if pyEndsWith name ".py" ∧ name ≠ ".py" then pyDropRight name 3 else name

/-- Classify one path segment as a route token, following the loop body of
`_tokens_from_path`: a bracket-wrapped segment whose stripped inner name is
nonempty and does not start with a digit becomes `("param", name)`; a
bracket-wrapped segment with an empty or digit-leading name becomes
`("static", name)`; anything else is `("static", seg)`. -/
def classifySegment (seg : String) : String × String :=
  if pyStartsWith seg "[" ∧ pyEndsWith seg "]" then
    let name := pyTrim (pyDropRight (pyDrop seg 1) 1)
    if name ≠ "" ∧ ¬ pyFrontIsDigit name then ("param", name)
    else ("static", name)
  else ("static", seg)

/-- Dot-separated stem segments: `rel.stem.split(".")`, each stripped,
empty results dropped (`_tokens_from_path`). -/
def stemParts (filename : String) : List String :=
  ((pySplitOnChar '.' (pathStem filename)).map pyTrim).filter (fun s => s ≠ "")

/-- The token sequence of an endpoint file (`_tokens_from_path`): a bare
top-level `index.py` yields the empty sequence; otherwise every directory
component and dot-separated stem segment is classified in order. -/
def tokensFromPath (p : RelPath) : List (String × String) :=
  if p.filename = "index.py" ∧ p.dirs = [] then []
  else (p.dirs ++ stemParts p.filename).map classifySegment

/-- Route pattern rendering in `_build_route_table`: `/`-joined tokens with
params braced; the empty token list renders as `/`. -/
def renderPattern (tokens : List (String × String)) : String :=
  let joined := "/" ++ pyJoin "/"
    (tokens.map (fun kv => if kv.1 = "param" then "\x7b" ++ kv.2 ++ "\x7d" else kv.2))
  if joined = "" then "/" else joined

/-- One row of the routing table built by `_build_route_table`. -/
structure RouteEntry where
  file : RelPath
  tokens : List (String × String)
  pattern : String
  paramCount : Nat
  staticCount : Nat
deriving DecidableEq, Repr

/-- Construct the table row for one endpoint file (`_build_route_table`
loop body). -/
def routeEntryOfFile (p : RelPath) : RouteEntry :=
  let tokens := tokensFromPath p
  { file := p
    tokens := tokens
    pattern := renderPattern tokens
    paramCount := tokens.countP (fun kv => kv.1 = "param")
    staticCount := tokens.countP (fun kv => kv.1 = "static") }

/-- File filter in `_build_route_table`: skip `__pycache__` trees,
`__init__.py`, and underscore-prefixed filenames. -/
def keepRouteFile (p : RelPath) : Bool :=
  ¬ ("__pycache__" ∈ p.dirs) ∧ p.filename ≠ "__init__.py" ∧
    ¬ pyStartsWith p.filename "_"

/-- Sort comparison of `_build_route_table`: the Python key tuple
`(param_count, -static_count, pattern)` compared lexicographically
(ascending params, then descending statics, then pattern text). -/
def routeSortLe (a b : RouteEntry) : Bool :=
  if a.paramCount ≠ b.paramCount then decide (a.paramCount < b.paramCount)
  else if a.staticCount ≠ b.staticCount then decide (b.staticCount < a.staticCount)
  else pyStrLe a.pattern b.pattern

/-- The routing table of `_build_route_table`: rows for every kept file, in
scan order, stable-sorted by specificity.  The input list stands for the
`rglob` results (already ordered by lower-cased path text); the function
performs no collision detection of any kind. -/
def buildRouteTable (files : List RelPath) : List RouteEntry :=
  pySortStable routeSortLe ((files.filter keepRouteFile).map routeEntryOfFile)

/-- Result of a successful `_match_route`: matched file, bound parameters,
and the matched pattern. -/
structure MatchResult where
  file : RelPath
  params : List (String × String)
  pattern : String
deriving DecidableEq, Repr

/-- Inner token/segment loop of `_match_route`: statics must equal their
segment, params bind into the dict; `none` means the entry is rejected. -/
def matchTokensLoop : List (String × String) → List String →
    List (String × String) → Option (List (String × String))
  | [], _, params => some params
  | _ :: _, [], params => some params
  | (k, v) :: ts, s :: ss, params =>
    if k = "static" then
      if s ≠ v then none else matchTokensLoop ts ss params
    else matchTokensLoop ts ss (pyDictInsert params v s)

/-- First-match route scan of `_match_route`: skip entries whose token count
differs from the segment count, return the first remaining entry whose
statics all match. -/
def matchRoute : List RouteEntry → List String → Option MatchResult
  | [], _ => none
  | r :: rest, segments =>
    if r.tokens.length ≠ segments.length then matchRoute rest segments
    else
      match matchTokensLoop r.tokens segments [] with
      | some params => some ⟨r.file, params, r.pattern⟩
      | none => matchRoute rest segments

/-- Specification-style predicate for one entry matching: token count equals
segment count and every `static` token equals its segment. -/
def entryMatches (tokens : List (String × String)) (segments : List String) :
    Bool :=
  (tokens.length == segments.length) &&
    (tokens.zip segments).all (fun x => x.1.1 != "static" || x.1.2 == x.2)

/-- Parameter bindings collected by a matching entry: every `param` token
binds its segment, in order, with dict overwrite semantics. -/
def collectParams (tokens : List (String × String)) (segments : List String) :
    List (String × String) :=
  (tokens.zip segments).foldl
    (fun acc x => if x.1.1 = "static" then acc else pyDictInsert acc x.1.2 x.2) []

example : tokensFromPath ⟨[], "notes.[id].py"⟩ =
    [("static", "notes"), ("param", "id")] := by decide
example : tokensFromPath ⟨[], "index.py"⟩ = [] := by decide
example : tokensFromPath ⟨["admin"], "users.[uid].py"⟩ =
    [("static", "admin"), ("static", "users"), ("param", "uid")] := by decide
example : tokensFromPath ⟨["d"], "index.py"⟩ =
    [("static", "d"), ("static", "index")] := by decide
example : tokensFromPath ⟨[], "[1x].py"⟩ = [("static", "1x")] := by decide
example :
    buildRouteTable [⟨[], "[x].py"⟩, ⟨[], "notes.py"⟩] =
      [routeEntryOfFile ⟨[], "notes.py"⟩, routeEntryOfFile ⟨[], "[x].py"⟩] := by
  decide
example :
    matchRoute (buildRouteTable [⟨[], "[x].py"⟩, ⟨[], "notes.py"⟩]) ["notes"] =
      some ⟨⟨[], "notes.py"⟩, [], "/notes"⟩ := by decide

theorem matchTokensLoop_eq (ts : List (String × String)) (ss : List String)
    (params : List (String × String)) :
    matchTokensLoop ts ss params =
      if (ts.zip ss).all (fun x => x.1.1 != "static" || x.1.2 == x.2) then
        some ((ts.zip ss).foldl
          (fun acc x =>
            if x.1.1 = "static" then acc else pyDictInsert acc x.1.2 x.2) params)
      else none := by
  induction ts generalizing ss params with
  | nil => simp [matchTokensLoop]
  | cons t ts ih =>
    cases ss with
    | nil =>
      obtain ⟨k, v⟩ := t
      simp [matchTokensLoop]
    | cons s ss =>
      obtain ⟨k, v⟩ := t
      by_cases hk : k = "static"
      · subst hk
        by_cases hs : s = v
        · subst hs
          have hb : (s == s) = true := beq_self_eq_true s
          rcases Bool.eq_false_or_eq_true
              ((ts.zip ss).all fun x => x.1.1 != "static" || x.1.2 == x.2) with
            hall | hall
          · simp [matchTokensLoop, ih, List.all_cons, hall, hb]
          · simp [matchTokensLoop, ih, List.all_cons, hall, hb]
        · have hb : (v == s) = false := by
            refine beq_eq_false_iff_ne.mpr ?_
            intro he
            exact hs he.symm
          simp [matchTokensLoop, hs, List.all_cons, hb]
      · have hb : (k != "static") = true := by
          simp [bne, hk]
        rcases Bool.eq_false_or_eq_true
            ((ts.zip ss).all fun x => x.1.1 != "static" || x.1.2 == x.2) with
          hall | hall
        · simp [matchTokensLoop, hk, ih, List.all_cons, hall, hb]
        · simp [matchTokensLoop, hk, ih, List.all_cons, hall, hb]

theorem matchRoute_eq_find (routes : List RouteEntry) (segs : List String) :
    matchRoute routes segs =
      (routes.find? (fun r => entryMatches r.tokens segs)).map
        (fun r => ⟨r.file, collectParams r.tokens segs, r.pattern⟩) := by
  induction routes with
  | nil => simp [matchRoute]
  | cons r rest ih =>
    by_cases hlen : r.tokens.length = segs.length
    · by_cases hall :
        (r.tokens.zip segs).all (fun x => x.1.1 != "static" || x.1.2 == x.2) = true
      · have hmatch : entryMatches r.tokens segs = true := by
          simp [entryMatches, hlen, hall]
        simp [matchRoute, hlen, matchTokensLoop_eq, hall, List.find?, hmatch,
          collectParams]
      · have hmatch : entryMatches r.tokens segs = false := by
          simp [entryMatches, hlen]
          simpa using hall
        simp [matchRoute, hlen, matchTokensLoop_eq, hall, List.find?, hmatch, ih]
    · have hmatch : entryMatches r.tokens segs = false := by
        simp [entryMatches, hlen]
      simp [matchRoute, hlen, List.find?, hmatch, ih]

theorem routeSortLe_total (a b : RouteEntry) :
    routeSortLe a b = true ∨ routeSortLe b a = true := by
  by_cases hp : a.paramCount = b.paramCount
  · by_cases hs : a.staticCount = b.staticCount
    · rcases pyStrLe_total a.pattern b.pattern with h | h
      · left; simp [routeSortLe, hp, hs, h]
      · right; simp [routeSortLe, hp.symm, hs.symm, h]
    · rcases Nat.lt_or_ge a.staticCount b.staticCount with h | h
      · right
        have hs2 : b.staticCount ≠ a.staticCount := fun he => hs he.symm
        simp [routeSortLe, hp.symm, hs2, h]
      · left
        have hlt : b.staticCount < a.staticCount :=
          lt_of_le_of_ne h (fun he => hs he.symm)
        simp [routeSortLe, hp, hs, hlt]
  · rcases Nat.lt_or_ge a.paramCount b.paramCount with h | h
    · left; simp [routeSortLe, hp, h]
    · right
      have hp2 : b.paramCount ≠ a.paramCount := fun he => hp he.symm
      have hlt : b.paramCount < a.paramCount :=
        lt_of_le_of_ne h (fun he => hp he.symm)
      simp [routeSortLe, hp2, hlt]

theorem routeSortLe_trans (a b c : RouteEntry) (h1 : routeSortLe a b = true)
    (h2 : routeSortLe b c = true) : routeSortLe a c = true := by
  by_cases hpab : a.paramCount = b.paramCount
  · by_cases hpbc : b.paramCount = c.paramCount
    · have hpac : a.paramCount = c.paramCount := hpab.trans hpbc
      by_cases hsab : a.staticCount = b.staticCount
      · by_cases hsbc : b.staticCount = c.staticCount
        · have hsac : a.staticCount = c.staticCount := hsab.trans hsbc
          simp [routeSortLe, hpab, hsab] at h1
          simp [routeSortLe, hpbc, hsbc] at h2
          simp [routeSortLe, hpac, hsac]
          exact pyStrLe_trans _ _ _ h1 h2
        · simp [routeSortLe, hpbc, hsbc] at h2
          have hsac : a.staticCount ≠ c.staticCount := by
            rw [hsab]; intro he; exact hsbc he
          have hlt : c.staticCount < a.staticCount := by
            rw [hsab]; exact h2
          simp [routeSortLe, hpac, hsac, hlt]
      · simp [routeSortLe, hpab, hsab] at h1
        by_cases hsbc : b.staticCount = c.staticCount
        · have hsac : a.staticCount ≠ c.staticCount := fun he =>
            hsab (he.trans hsbc.symm)
          have hlt : c.staticCount < a.staticCount := by
            rw [← hsbc]; exact h1
          simp [routeSortLe, hpac, hsac, hlt]
        · simp [routeSortLe, hpbc, hsbc] at h2
          have hlt : c.staticCount < a.staticCount := lt_trans h2 h1
          have hsac : a.staticCount ≠ c.staticCount := fun he => by
            rw [he] at hlt; exact lt_irrefl _ hlt
          simp [routeSortLe, hpac, hsac, hlt]
    · simp [routeSortLe, hpbc] at h2
      have hlt : a.paramCount < c.paramCount := by
        rw [hpab]; exact h2
      have hne : a.paramCount ≠ c.paramCount := ne_of_lt hlt
      simp [routeSortLe, hne, hlt]
  · simp [routeSortLe, hpab] at h1
    by_cases hpbc : b.paramCount = c.paramCount
    · have hlt : a.paramCount < c.paramCount := hpbc ▸ h1
      have hne : a.paramCount ≠ c.paramCount := ne_of_lt hlt
      simp [routeSortLe, hne, hlt]
    · simp [routeSortLe, hpbc] at h2
      have hlt : a.paramCount < c.paramCount := lt_trans h1 h2
      have hne : a.paramCount ≠ c.paramCount := ne_of_lt hlt
      simp [routeSortLe, hne, hlt]

/-- Token shape with parameter names erased: two token sequences have the
same shape when they have the same length, the same static literals in the
same positions, and params in the same positions regardless of name. -/
def tokenShape (tokens : List (String × String)) : List (String × String) :=
  tokens.map (fun kv => if kv.1 = "param" then ("param", "") else kv)

/-- C2: the table built by `_build_route_table` is sorted by ascending param
count, then descending static count, then pattern text; `_match_route`
returns the first entry whose token count equals the segment count and whose
statics all equal their segments, binding params into the name-value map;
and with both `/notes` and `/[x]` present, the request `notes` selects the
static route. -/
theorem route_table_sort_and_first_match :
    (∀ files : List RelPath,
      (buildRouteTable files).Pairwise (fun a b => routeSortLe a b = true)) ∧
    (∀ (routes : List RouteEntry) (segs : List String),
      matchRoute routes segs =
        (routes.find? (fun r => entryMatches r.tokens segs)).map
          (fun r => ⟨r.file, collectParams r.tokens segs, r.pattern⟩)) ∧
    matchRoute (buildRouteTable [⟨[], "[x].py"⟩, ⟨[], "notes.py"⟩]) ["notes"] =
      some ⟨⟨[], "notes.py"⟩, [], "/notes"⟩ := by
  refine ⟨?_, matchRoute_eq_find, by decide⟩
  intro files
  exact pairwise_pySortStable routeSortLe routeSortLe_total routeSortLe_trans _

/-- C1 counterexample: two route files with identical token shapes (param
names differ, shape coincides) do not make `_build_route_table` fail; the
function is total and returns a table containing both entries. -/
theorem route_collision_counterexample :
    tokenShape (tokensFromPath ⟨[], "notes.[a].py"⟩) =
      tokenShape (tokensFromPath ⟨[], "notes.[b].py"⟩) ∧
    buildRouteTable [⟨[], "notes.[a].py"⟩, ⟨[], "notes.[b].py"⟩] =
      [routeEntryOfFile ⟨[], "notes.[a].py"⟩,
        routeEntryOfFile ⟨[], "notes.[b].py"⟩] := by
  decide

/-- C1 amended: `_build_route_table` performs no collision detection; for
any two kept route files, identical token shapes included, the built table
simply contains an entry for each file, and first-match order decides
between them at dispatch time. -/
theorem route_collision_amended (f1 f2 : RelPath)
    (h1 : keepRouteFile f1 = true) (h2 : keepRouteFile f2 = true)
    (hshape : tokenShape (tokensFromPath f1) = tokenShape (tokensFromPath f2)) :
    routeEntryOfFile f1 ∈ buildRouteTable [f1, f2] ∧
    routeEntryOfFile f2 ∈ buildRouteTable [f1, f2] := by
  have hfilter : ([f1, f2].filter keepRouteFile) = [f1, f2] := by
    simp [List.filter, h1, h2]
  constructor
  · rw [buildRouteTable, hfilter]
    exact (mem_pySortStable _ _ _).mpr (by simp)
  · rw [buildRouteTable, hfilter]
    exact (mem_pySortStable _ _ _).mpr (by simp)

theorem route_collision_amended_witness :
    keepRouteFile ⟨[], "notes.[a].py"⟩ = true ∧
    keepRouteFile ⟨[], "notes.[b].py"⟩ = true ∧
    tokenShape (tokensFromPath ⟨[], "notes.[a].py"⟩) =
      tokenShape (tokensFromPath ⟨[], "notes.[b].py"⟩) ∧
    (routeEntryOfFile ⟨[], "notes.[a].py"⟩ ∈
        buildRouteTable [⟨[], "notes.[a].py"⟩, ⟨[], "notes.[b].py"⟩] ∧
      routeEntryOfFile ⟨[], "notes.[b].py"⟩ ∈
        buildRouteTable [⟨[], "notes.[a].py"⟩, ⟨[], "notes.[b].py"⟩]) :=
  ⟨by decide, by decide, by decide,
    route_collision_amended ⟨[], "notes.[a].py"⟩ ⟨[], "notes.[b].py"⟩
      (by decide) (by decide) (by decide)⟩

/-- C4 counterexample: a bracket segment with a digit-leading name does not
raise any error; `_tokens_from_path` silently produces a static token for it
and table construction succeeds. -/
theorem digit_param_counterexample :
    tokensFromPath ⟨[], "[1x].py"⟩ = [("static", "1x")] ∧
    buildRouteTable [⟨[], "[1x].py"⟩] = [routeEntryOfFile ⟨[], "[1x].py"⟩] := by
  decide

/-- C4 amended: a bracket-wrapped segment whose stripped inner name is empty
or starts with a digit is demoted to a static token holding the stripped
name; no build error is raised. -/
theorem digit_param_amended (seg : String)
    (h1 : pyStartsWith seg "[" = true) (h2 : pyEndsWith seg "]" = true)
    (h3 : pyTrim (pyDropRight (pyDrop seg 1) 1) = "" ∨
      pyFrontIsDigit (pyTrim (pyDropRight (pyDrop seg 1) 1)) = true) :
    classifySegment seg = ("static", pyTrim (pyDropRight (pyDrop seg 1) 1)) := by
  rcases h3 with h3 | h3
  · simp [classifySegment, h1, h2, h3]
  · simp [classifySegment, h1, h2, h3]

theorem digit_param_amended_witness :
    (pyStartsWith "[1x]" "[" = true ∧ pyEndsWith "[1x]" "]" = true ∧
      pyFrontIsDigit (pyTrim (pyDropRight (pyDrop "[1x]" 1) 1)) = true) ∧
    classifySegment "[1x]" =
      ("static", pyTrim (pyDropRight (pyDrop "[1x]" 1) 1)) :=
  ⟨⟨by decide, by decide, by decide⟩,
    digit_param_amended "[1x]" (by decide) (by decide) (Or.inr (by decide))⟩

/-- C8 counterexample: in a subdirectory, `index.py` does not map to the
directory's root route; it contributes an extra static `index` segment. -/
theorem index_route_counterexample :
    tokensFromPath ⟨["d"], "index.py"⟩ =
      [("static", "d"), ("static", "index")] ∧
    tokensFromPath ⟨["d"], "index.py"⟩ ≠ [("static", "d")] := by
  decide

/-- C8 amended: only a top-level bare `index.py` yields the empty token
sequence (the root route); in any subdirectory, `index.py` yields the
directory components' tokens followed by a static `index` token. -/
theorem index_route_amended (dirs : List String) :
    tokensFromPath ⟨[], "index.py"⟩ = [] ∧
    (dirs ≠ [] →
      tokensFromPath ⟨dirs, "index.py"⟩ =
        dirs.map classifySegment ++ [("static", "index")]) := by
  refine ⟨by decide, ?_⟩
  intro hne
  have hcond : ¬ (("index.py" : String) = "index.py" ∧ dirs = []) := by
    intro h
    exact hne h.2
  rw [tokensFromPath]
  rw [if_neg hcond]
  have hstem : stemParts "index.py" = ["index"] := by decide
  have hclass : classifySegment "index" = ("static", "index") := by decide
  rw [hstem, List.map_append]
  simp [hclass]

theorem index_route_amended_witness :
    (["d"] : List String) ≠ [] ∧
    tokensFromPath ⟨["d"], "index.py"⟩ =
      ["d"].map classifySegment ++ [("static", "index")] :=
  ⟨by decide, (index_route_amended ["d"]).2 (by decide)⟩

/-- Python `d.pop(k, None)`: remove the entry for `k` if present. -/
def pyDictRemove {α : Type} (d : List (String × α)) (k : String) :
    List (String × α) :=
  match d with
  | [] => []
  | (k', v) :: rest => if k' = k then rest else (k', v) :: pyDictRemove rest k

/-- State of a handler file on disk at dispatch time: its modification time,
the `Endpoint` class its code exports (abstracted to an id, `none` when the
module body defines no such class), and whether executing the module body
raises. -/
structure HandlerFileState where
  mtime : Nat
  endpointCls : Option Nat
  execFails : Bool
deriving DecidableEq, Repr

/-- A cached module in `sys.modules`: the `__loaded_ok__` flag, the recorded
`__file_mtime__`, and the exported `Endpoint` class. -/
structure LoadedModule where
  loadedOk : Bool
  fileMtime : Option Nat
  endpointCls : Option Nat
deriving DecidableEq, Repr

/-- The fresh-import tail of `_load_module_from_file`: the module is
inserted before execution (circular-import support) and removed again when
execution fails, so no half-imported module stays referenceable. -/
def freshLoadModule (sysModules : List (String × LoadedModule))
    (moduleName : String) (file : HandlerFileState) :
    Except Unit LoadedModule × List (String × LoadedModule) :=
  if file.execFails then ((Except.error ()), pyDictRemove sysModules moduleName)
  else
    let m : LoadedModule := ⟨true, some file.mtime, file.endpointCls⟩
    (Except.ok m, pyDictInsert sysModules moduleName m)

/-- Embedding of `_load_module_from_file`: a cached module that loaded
successfully and whose recorded mtime equals the file's current mtime is
returned unchanged without re-executing anything; otherwise the stale or
partial entry is evicted and a fresh load is performed. -/
def loadModuleFromFile (sysModules : List (String × LoadedModule))
    (moduleName : String) (file : HandlerFileState) :
    Except Unit LoadedModule × List (String × LoadedModule) :=
  match pyDictGet sysModules moduleName with
  | some cached =>
    if cached.loadedOk then
      if cached.fileMtime = some file.mtime then (Except.ok cached, sysModules)
      else freshLoadModule (pyDictRemove sysModules moduleName) moduleName file
    else freshLoadModule (pyDictRemove sysModules moduleName) moduleName file
  | none => freshLoadModule sysModules moduleName file

/-- Dispatch-time errors surfaced by `ApiRouter._load_endpoint_cls`. -/
inductive DispatchError
  | loadFailed
  | missingEndpointClass
deriving DecidableEq, Repr

/-- Embedding of `ApiRouter._load_endpoint_cls`: the router's per-path
class cache is consulted first and, on a hit, returned immediately without
looking at the file at all; only on a miss is the module loader invoked and
the exported class cached.  The cache has no invalidation. -/
def loadEndpointCls (cache : List (String × Nat))
    (sysModules : List (String × LoadedModule))
    (filePath moduleName : String) (file : HandlerFileState) :
    Except DispatchError Nat × List (String × Nat) ×
      List (String × LoadedModule) :=
  match pyDictGet cache filePath with
  | some cls => (Except.ok cls, cache, sysModules)
  | none =>
    match loadModuleFromFile sysModules moduleName file with
    | (Except.error _, sys2) => (Except.error DispatchError.loadFailed, cache, sys2)
    | (Except.ok m, sys2) =>
      match m.endpointCls with
      | none => (Except.error DispatchError.missingEndpointClass, cache, sys2)
      | some cls => (Except.ok cls, pyDictInsert cache filePath cls, sys2)

/-- C3: the second half of the claim fails on the code.  The module loader
itself honours mtimes (an unchanged file is never re-executed, an edited
file is re-imported), but `_load_endpoint_cls` caches the `Endpoint` class
per path with no invalidation, so after an edit the next dispatch still
receives the stale class (here `10`) even though a fresh load would expose
the new one (`20`). -/
theorem endpoint_class_cache_staleness :
    loadEndpointCls [] [] "p" "m" ⟨1, some 10, false⟩ =
      (Except.ok 10, [("p", 10)], [("m", ⟨true, some 1, some 10⟩)]) ∧
    loadModuleFromFile [("m", ⟨true, some 1, some 10⟩)] "m" ⟨1, some 10, false⟩ =
      (Except.ok ⟨true, some 1, some 10⟩, [("m", ⟨true, some 1, some 10⟩)]) ∧
    loadModuleFromFile [("m", ⟨true, some 1, some 10⟩)] "m" ⟨2, some 20, false⟩ =
      (Except.ok ⟨true, some 2, some 20⟩, [("m", ⟨true, some 2, some 20⟩)]) ∧
    loadEndpointCls [("p", 10)] [("m", ⟨true, some 1, some 10⟩)] "p" "m"
        ⟨2, some 20, false⟩ =
      (Except.ok 10, [("p", 10)], [("m", ⟨true, some 1, some 10⟩)]) ∧
    (10 : Nat) ≠ 20 :=
  ⟨rfl, rfl, rfl, rfl, by decide⟩

/-- Structured request values (JSON-like), as seen by the request binder. -/
inductive PyValue
  | str (s : String)
  | int (n : Int)
  | boolean (b : Bool)
  | null
  | dict (entries : List (String × PyValue))
  | arr (elems : List PyValue)

/-- The merged argument map of `_call_with_binding`: query parameters are
copied first, route-path parameters are written over them, and each body
field is added with `setdefault` (only when its key is absent). -/
def mergedParams (queryParams routeParams : List (String × PyValue))
    (body : Option PyValue) : List (String × PyValue) :=
  let merged := pyDictUpdate (pyDictOfPairs queryParams) routeParams
  match body with
  | some (PyValue.dict entries) =>
    entries.foldl (fun acc kv => pySetdefault acc kv.1 kv.2) merged
  | _ => merged

/-- Binder failure: `HTTPError(400, "Missing param")`. -/
inductive BindError
  | missingParam (name : String)

/-- Python `isinstance(body, dict)` on the parsed JSON body. -/
def bodyIsDict : Option PyValue → Bool
  | some (PyValue.dict _) => true
  | _ => false

/-- Per-parameter raw-value resolution of `_call_with_binding`: the merged
map wins; an absent name falls back to whole-body binding (single dataclass
parameter with a dict body), then to the declared default, then to a 400
error. -/
def resolveRawValue (merged : List (String × PyValue)) (body : Option PyValue)
    (nonselfParamCount : Nat) (isDataclassAnn : Bool) (name : String)
    (dflt : Option PyValue) : Except BindError PyValue :=
  match pyDictGet merged name with
  | some v => Except.ok v
  | none =>
    if nonselfParamCount = 1 ∧ isDataclassAnn ∧ bodyIsDict body then
      Except.ok (body.getD PyValue.null)
    else
      match dflt with
      | some d => Except.ok d
      | none => Except.error (BindError.missingParam name)

theorem pyDictGet_pyDictInsert_ne {α : Type} (d : List (String × α))
    (k' : String) (v' : α) (k : String) (hne : k ≠ k') :
    pyDictGet (pyDictInsert d k' v') k = pyDictGet d k := by
  induction d with
  | nil =>
    have : k' ≠ k := fun he => hne he.symm
    simp [pyDictInsert, pyDictGet, this]
  | cons kv rest ih =>
    obtain ⟨k0, v0⟩ := kv
    by_cases h0 : k0 = k'
    · subst h0
      have h1 : k0 ≠ k := fun he => hne he.symm
      simp [pyDictInsert, pyDictGet, h1]
    · by_cases hk : k0 = k
      · subst hk
        simp [pyDictInsert, pyDictGet, h0]
      · simp [pyDictInsert, pyDictGet, h0, hk, ih]

theorem pyDictGet_pySetdefault_present {α : Type} (d : List (String × α))
    (k' : String) (v' : α) (k : String)
    (hk : (pyDictGet d k).isSome = true) :
    pyDictGet (pySetdefault d k' v') k = pyDictGet d k := by
  rw [pySetdefault]
  cases hget : pyDictGet d k' with
  | some w => rfl
  | none =>
    have hne : k ≠ k' := by
      intro he
      subst he
      rw [hget] at hk
      simp at hk
    exact pyDictGet_pyDictInsert_ne d k' v' k hne

theorem pyDictGet_foldl_setdefault {α : Type}
    (entries : List (String × α)) (d : List (String × α)) (k : String)
    (hk : (pyDictGet d k).isSome = true) :
    pyDictGet (entries.foldl (fun acc kv => pySetdefault acc kv.1 kv.2) d) k =
      pyDictGet d k := by
  induction entries generalizing d with
  | nil => rfl
  | cons e rest ih =>
    have hstep := pyDictGet_pySetdefault_present d e.1 e.2 k hk
    have hk2 : (pyDictGet (pySetdefault d e.1 e.2) k).isSome = true := by
      rw [hstep]; exact hk
    rw [List.foldl_cons, ih (pySetdefault d e.1 e.2) hk2, hstep]

/-- C7: path and query parameters populate the merged map first and body
fields are only set when absent, so a name supplied by path/query always
reaches the handler with its path/query value — the body value is never
selected for it. -/
theorem binding_path_query_over_body
    (q r bodyEntries : List (String × PyValue)) (k : String)
    (npc : Nat) (isDc : Bool) (dflt : Option PyValue)
    (hk : (pyDictGet (pyDictUpdate (pyDictOfPairs q) r) k).isSome = true) :
    ∃ v, pyDictGet (pyDictUpdate (pyDictOfPairs q) r) k = some v ∧
      pyDictGet (mergedParams q r (some (PyValue.dict bodyEntries))) k =
        some v ∧
      resolveRawValue (mergedParams q r (some (PyValue.dict bodyEntries)))
        (some (PyValue.dict bodyEntries)) npc isDc k dflt = Except.ok v := by
  cases hv : pyDictGet (pyDictUpdate (pyDictOfPairs q) r) k with
  | none => rw [hv] at hk; simp at hk
  | some v =>
    refine ⟨v, rfl, ?_, ?_⟩
    · have := pyDictGet_foldl_setdefault bodyEntries
        (pyDictUpdate (pyDictOfPairs q) r) k hk
      rw [mergedParams]
      rw [this, hv]
    · have hmerged :
          pyDictGet (mergedParams q r (some (PyValue.dict bodyEntries))) k =
            some v := by
        have := pyDictGet_foldl_setdefault bodyEntries
          (pyDictUpdate (pyDictOfPairs q) r) k hk
        rw [mergedParams]
        rw [this, hv]
      simp [resolveRawValue, hmerged]

theorem binding_path_query_over_body_witness :
    (pyDictGet
      (pyDictUpdate (pyDictOfPairs [("a", PyValue.str "fromquery")])
        [("a", PyValue.str "fromroute")]) "a").isSome = true ∧
    ∃ v, pyDictGet
        (pyDictUpdate (pyDictOfPairs [("a", PyValue.str "fromquery")])
          [("a", PyValue.str "fromroute")]) "a" = some v ∧
      pyDictGet
        (mergedParams [("a", PyValue.str "fromquery")]
          [("a", PyValue.str "fromroute")]
          (some (PyValue.dict [("a", PyValue.str "frombody")]))) "a" = some v ∧
      resolveRawValue
        (mergedParams [("a", PyValue.str "fromquery")]
          [("a", PyValue.str "fromroute")]
          (some (PyValue.dict [("a", PyValue.str "frombody")])))
        (some (PyValue.dict [("a", PyValue.str "frombody")])) 1 false "a"
        none = Except.ok v :=
  ⟨rfl, binding_path_query_over_body [("a", PyValue.str "fromquery")]
    [("a", PyValue.str "fromroute")] [("a", PyValue.str "frombody")] "a"
    1 false none rfl⟩

/-- Lexical resolution of `(assets_dir / Path(*segments)).resolve()`:
starting from the already-resolved absolute assets directory (a component
list), `..` pops one component (staying at the root when empty), `.` and
empty segments vanish, and everything else appends. -/
def resolveSegments (base : List String) : List String → List String
  | [] => base
  | s :: rest =>
    if s = ".." then resolveSegments base.dropLast rest
    else if s = "." ∨ s = "" then resolveSegments base rest
    else resolveSegments (base ++ [s]) rest

/-- Python `Path.parents` as component lists: every proper ancestor of the
path, the filesystem root included. -/
def pathParents (p : List String) : List (List String) :=
  (List.range p.length).map (fun k => p.take k)

/-- Embedding of `ApiRouter._serve_asset`: resolve the candidate, reject
with 404 (`none`) unless the assets directory is among the candidate's
parents or is the candidate itself, then serve only an existing file. -/
def serveAsset (assetsDir : List String) (files : List (List String))
    (segments : List String) : Option (List String) :=
  let candidate := resolveSegments assetsDir segments
  if ¬ (assetsDir ∈ pathParents candidate) ∧ candidate ≠ assetsDir then none
  else if candidate ∈ files then some candidate else none

theorem mem_pathParents_iff (a c : List String) :
    a ∈ pathParents c ↔ ∃ k, k < c.length ∧ a = c.take k := by
  constructor
  · intro h
    rcases List.mem_map.mp h with ⟨k, hk, he⟩
    exact ⟨k, List.mem_range.mp hk, he.symm⟩
  · rintro ⟨k, hk, rfl⟩
    exact List.mem_map.mpr ⟨k, List.mem_range.mpr hk, rfl⟩

theorem prefix_of_mem_pathParents (a c : List String)
    (h : a ∈ pathParents c) : a <+: c := by
  rcases (mem_pathParents_iff a c).mp h with ⟨k, _, rfl⟩
  exact ⟨c.drop k, List.take_append_drop k c⟩

theorem mem_pathParents_of_proper_prefix (a c : List String)
    (h : a <+: c) (hne : a ≠ c) : a ∈ pathParents c := by
  rcases h with ⟨t, rfl⟩
  cases t with
  | nil => exact absurd (by simp) hne
  | cons x xs =>
    refine (mem_pathParents_iff a (a ++ x :: xs)).mpr ⟨a.length, ?_, ?_⟩
    · simp
    · rw [List.take_left]

/-- C10: the asset server serves a file only when the fully resolved
candidate path stays inside the assets directory; any request whose
resolved candidate escapes the directory (for instance via `..` segments)
is answered with not-found and never with file contents. -/
theorem asset_serving_stays_inside_assets_dir :
    (∀ (assetsDir : List String) (files : List (List String))
        (segments : List String) (p : List String),
      serveAsset assetsDir files segments = some p →
        assetsDir <+: p ∧ p = resolveSegments assetsDir segments) ∧
    (∀ (assetsDir : List String) (files : List (List String))
        (segments : List String),
      ¬ assetsDir <+: resolveSegments assetsDir segments →
        serveAsset assetsDir files segments = none) := by
  constructor
  · intro assetsDir files segments p hserve
    rw [serveAsset] at hserve
    by_cases hcond :
        ¬ (assetsDir ∈ pathParents (resolveSegments assetsDir segments)) ∧
          resolveSegments assetsDir segments ≠ assetsDir
    · rw [if_pos hcond] at hserve
      exact absurd hserve (by simp)
    · rw [if_neg hcond] at hserve
      by_cases hfile : resolveSegments assetsDir segments ∈ files
      · rw [if_pos hfile] at hserve
        have hp : p = resolveSegments assetsDir segments :=
          (Option.some.injEq _ _ ▸ hserve).symm
        subst hp
        refine ⟨?_, rfl⟩
        rcases not_and_or.mp hcond with h | h
        · exact prefix_of_mem_pathParents _ _ (not_not.mp h)
        · rw [not_not.mp h]
      · rw [if_neg hfile] at hserve
        exact absurd hserve (by simp)
  · intro assetsDir files segments hesc
    rw [serveAsset]
    have h1 : ¬ (assetsDir ∈ pathParents (resolveSegments assetsDir segments)) := by
      intro hmem
      exact hesc (prefix_of_mem_pathParents _ _ hmem)
    have h2 : resolveSegments assetsDir segments ≠ assetsDir := by
      intro he
      exact hesc (by rw [he])
    rw [if_pos ⟨h1, h2⟩]

theorem asset_serving_stays_inside_assets_dir_witness :
    ((["srv", "assets"] : List String) <+: ["srv", "assets", "app.js"] ∧
      (["srv", "assets", "app.js"] : List String) =
        resolveSegments ["srv", "assets"] ["app.js"]) ∧
    serveAsset ["srv", "assets"] [["srv", "assets", "app.js"], ["srv", "secret"]]
      ["..", "secret"] = none :=
  ⟨asset_serving_stays_inside_assets_dir.1 ["srv", "assets"]
      [["srv", "assets", "app.js"]] ["app.js"] ["srv", "assets", "app.js"] rfl,
    asset_serving_stays_inside_assets_dir.2 ["srv", "assets"]
      [["srv", "assets", "app.js"], ["srv", "secret"]] ["..", "secret"]
      (by decide)⟩

/-- Single-pass scanner implementing `re.sub(r"\[([^\]]+)\]", "${string}", s)`
(`DYNAMIC_SEGMENT_REGEX`): the second argument is `none` while scanning
normally and `some acc` (content so far, reversed) after an unclosed `[`.
An empty bracket pair `[]` is not a match and is emitted verbatim; an
unclosed `[` at end of input is emitted verbatim with its tail. -/
def templateSubAux : List Char → Option (List Char) → List Char
  | [], none => []
  | [], some acc => '[' :: acc.reverse
  | c :: rest, none =>
    if c = '[' then templateSubAux rest (some [])
    else c :: templateSubAux rest none
  | c :: rest, some acc =>
    if c = ']' then
      if acc = [] then '[' :: ']' :: templateSubAux rest none
      else "${string}".toList ++ templateSubAux rest none
    else templateSubAux rest (some (c :: acc))

/-- Embedding of `endpoint_key_to_template_literal_key`: bracket segments
replaced by the wildcard, wrapped in backquotes. -/
def endpointKeyToTemplateLiteralKey (endpointKey : String) : String :=
  "`" ++ String.mk (templateSubAux endpointKey.toList none) ++ "`"

/-- Scanner for `DYNAMIC_SEGMENT_REGEX.search`: state 0 scans, state 1 is
just after an opening `[`, state 2 is inside nonempty bracket content. -/
def hasDynamicMatchAux : List Char → Nat → Bool
  | [], _ => false
  | c :: rest, 0 =>
    if c = '[' then hasDynamicMatchAux rest 1 else hasDynamicMatchAux rest 0
  | c :: rest, 1 =>
    if c = ']' then hasDynamicMatchAux rest 0 else hasDynamicMatchAux rest 2
  | c :: rest, _ =>
    if c = ']' then true else hasDynamicMatchAux rest 2

/-- Embedding of `is_dynamic_endpoint_key`. -/
def isDynamicEndpointKey (endpointKey : String) : Bool :=
  hasDynamicMatchAux endpointKey.toList 0

/-- Structured form of the `RuntimeError` raised by
`build_dynamic_template_index` on a template collision: the Python message
is formatted from exactly these fields. -/
structure TemplateCollision where
  templateKey : String
  existingKey : String
  newKey : String
  existingSourceDisplay : String
  newSourceDisplay : String
deriving DecidableEq, Repr

/-- Source-file display used in the collision message
(`str(source)` or `"<unknown file>"`). -/
def sourceDisplay (sources : List (String × String)) (key : String) : String :=
  match pyDictGet sources key with
  | some p => p
  | none => "<unknown file>"

/-- Loop body of `build_dynamic_template_index`: keys processed in order,
an existing different (truthy) entry under the same template key aborts
with a collision error naming both source files. -/
def buildDynamicTemplateIndexGo (sources : List (String × String)) :
    List String → List (String × String) →
      Except TemplateCollision (List (String × String))
  | [], acc => Except.ok acc
  | k :: rest, acc =>
    let tk := endpointKeyToTemplateLiteralKey k
    match pyDictGet acc tk with
    | some existing =>
      if existing ≠ "" ∧ existing ≠ k then
        Except.error
          ⟨tk, existing, k, sourceDisplay sources existing,
            sourceDisplay sources k⟩
      else buildDynamicTemplateIndexGo sources rest (pyDictInsert acc tk k)
    | none => buildDynamicTemplateIndexGo sources rest (pyDictInsert acc tk k)

/-- Embedding of `build_dynamic_template_index`: iterate the sorted dynamic
keys, building the template-to-original-key map. -/
def buildDynamicTemplateIndex (dynamicEndpointKeys : List String)
    (sources : List (String × String)) :
    Except TemplateCollision (List (String × String)) :=
  buildDynamicTemplateIndexGo sources (pySortStable pyStrLe dynamicEndpointKeys)
    []

theorem pyDictGet_pyDictInsert_self {α : Type} (d : List (String × α))
    (k : String) (v : α) : pyDictGet (pyDictInsert d k v) k = some v := by
  induction d with
  | nil => simp [pyDictInsert, pyDictGet]
  | cons kv rest ih =>
    obtain ⟨k0, v0⟩ := kv
    by_cases h0 : k0 = k
    · subst h0
      simp [pyDictInsert, pyDictGet]
    · simp [pyDictInsert, pyDictGet, h0, ih]

/-- Accumulator invariant of the template-index loop: every stored value is
one of the overall keys and maps to its own template key. -/
def TemplateAccInv (allKeys : List String) (acc : List (String × String)) :
    Prop :=
  ∀ tk v, pyDictGet acc tk = some v →
    v ∈ allKeys ∧ endpointKeyToTemplateLiteralKey v = tk

theorem templateAccInv_insert (allKeys : List String)
    (acc : List (String × String)) (k : String)
    (hinv : TemplateAccInv allKeys acc) (hk : k ∈ allKeys) :
    TemplateAccInv allKeys
      (pyDictInsert acc (endpointKeyToTemplateLiteralKey k) k) := by
  intro tk v hget
  by_cases he : tk = endpointKeyToTemplateLiteralKey k
  · subst he
    rw [pyDictGet_pyDictInsert_self] at hget
    cases hget
    exact ⟨hk, rfl⟩
  · rw [pyDictGet_pyDictInsert_ne _ _ _ _ he] at hget
    exact hinv tk v hget

theorem templateIndexGo_error_fields (sources : List (String × String))
    (allKeys : List String) :
    ∀ (keys : List String) (acc : List (String × String)),
      TemplateAccInv allKeys acc → (∀ k ∈ keys, k ∈ allKeys) →
      ∀ e, buildDynamicTemplateIndexGo sources keys acc = Except.error e →
        e.existingKey ∈ allKeys ∧ e.newKey ∈ allKeys ∧
        e.existingKey ≠ e.newKey ∧
        endpointKeyToTemplateLiteralKey e.existingKey = e.templateKey ∧
        endpointKeyToTemplateLiteralKey e.newKey = e.templateKey ∧
        e.existingSourceDisplay = sourceDisplay sources e.existingKey ∧
        e.newSourceDisplay = sourceDisplay sources e.newKey := by
  intro keys
  induction keys with
  | nil =>
    intro acc _ _ e he
    simp [buildDynamicTemplateIndexGo] at he
  | cons k rest ih =>
    intro acc hinv hsub e he
    cases hget : pyDictGet acc (endpointKeyToTemplateLiteralKey k) with
    | some existing =>
      have hstep : buildDynamicTemplateIndexGo sources (k :: rest) acc =
          if existing ≠ "" ∧ existing ≠ k then
            Except.error
              ⟨endpointKeyToTemplateLiteralKey k, existing, k,
                sourceDisplay sources existing, sourceDisplay sources k⟩
          else buildDynamicTemplateIndexGo sources rest
            (pyDictInsert acc (endpointKeyToTemplateLiteralKey k) k) := by
        rw [buildDynamicTemplateIndexGo, hget]
      rw [hstep] at he
      by_cases hcond : existing ≠ "" ∧ existing ≠ k
      · rw [if_pos hcond] at he
        cases he
        rcases hinv _ _ hget with ⟨hmem, htk⟩
        exact ⟨hmem, hsub k (by simp), fun hh => hcond.2 hh, htk, rfl,
          rfl, rfl⟩
      · rw [if_neg hcond] at he
        exact ih _ (templateAccInv_insert allKeys acc k hinv
          (hsub k (by simp))) (fun x hx => hsub x (by simp [hx])) e he
    | none =>
      have hstep : buildDynamicTemplateIndexGo sources (k :: rest) acc =
          buildDynamicTemplateIndexGo sources rest
            (pyDictInsert acc (endpointKeyToTemplateLiteralKey k) k) := by
        rw [buildDynamicTemplateIndexGo, hget]
      rw [hstep] at he
      exact ih _ (templateAccInv_insert allKeys acc k hinv
        (hsub k (by simp))) (fun x hx => hsub x (by simp [hx])) e he

theorem templateIndexGo_ok_of_injective (sources : List (String × String))
    (allKeys : List String)
    (hinj : ∀ a ∈ allKeys, ∀ b ∈ allKeys,
      endpointKeyToTemplateLiteralKey a = endpointKeyToTemplateLiteralKey b →
        a = b) :
    ∀ (keys : List String) (acc : List (String × String)),
      TemplateAccInv allKeys acc → (∀ k ∈ keys, k ∈ allKeys) →
      ∃ m, buildDynamicTemplateIndexGo sources keys acc = Except.ok m := by
  intro keys
  induction keys with
  | nil =>
    intro acc _ _
    exact ⟨acc, rfl⟩
  | cons k rest ih =>
    intro acc hinv hsub
    cases hget : pyDictGet acc (endpointKeyToTemplateLiteralKey k) with
    | some existing =>
      rcases hinv _ _ hget with ⟨hmem, htk⟩
      have hek : existing = k := hinj existing hmem k (hsub k (by simp)) htk
      have hcond : ¬ (existing ≠ "" ∧ existing ≠ k) := by
        intro hc
        exact hc.2 hek
      have hstep : buildDynamicTemplateIndexGo sources (k :: rest) acc =
          if existing ≠ "" ∧ existing ≠ k then
            Except.error
              ⟨endpointKeyToTemplateLiteralKey k, existing, k,
                sourceDisplay sources existing, sourceDisplay sources k⟩
          else buildDynamicTemplateIndexGo sources rest
            (pyDictInsert acc (endpointKeyToTemplateLiteralKey k) k) := by
        rw [buildDynamicTemplateIndexGo, hget]
      rw [hstep, if_neg hcond]
      exact ih _ (templateAccInv_insert allKeys acc k hinv (hsub k (by simp)))
        (fun x hx => hsub x (by simp [hx]))
    | none =>
      have hstep : buildDynamicTemplateIndexGo sources (k :: rest) acc =
          buildDynamicTemplateIndexGo sources rest
            (pyDictInsert acc (endpointKeyToTemplateLiteralKey k) k) := by
        rw [buildDynamicTemplateIndexGo, hget]
      rw [hstep]
      exact ih _ (templateAccInv_insert allKeys acc k hinv (hsub k (by simp)))
        (fun x hx => hsub x (by simp [hx]))

theorem isDynamicEndpointKey_ne_empty (k : String)
    (h : isDynamicEndpointKey k = true) : k ≠ "" := by
  intro he
  subst he
  simp [isDynamicEndpointKey, hasDynamicMatchAux] at h

theorem templateIndexGo_error_of_collision (sources : List (String × String)) :
    ∀ (keys : List String) (acc : List (String × String)),
      (∀ tk v, pyDictGet acc tk = some v → v ≠ "") →
      (∀ k ∈ keys, k ≠ "") →
      ((∃ k ∈ keys, ∃ v,
          pyDictGet acc (endpointKeyToTemplateLiteralKey k) = some v ∧
            v ≠ k) ∨
        (∃ k1 ∈ keys, ∃ k2 ∈ keys, k1 ≠ k2 ∧
          endpointKeyToTemplateLiteralKey k1 =
            endpointKeyToTemplateLiteralKey k2)) →
      ∃ e, buildDynamicTemplateIndexGo sources keys acc = Except.error e := by
  intro keys
  induction keys with
  | nil =>
    intro acc _ _ hdisj
    rcases hdisj with ⟨k0, hk0, _⟩ | ⟨k1, hk1, _⟩
    · simp at hk0
    · simp at hk1
  | cons k rest ih =>
    intro acc haccne hkeys hdisj
    have hkne : k ≠ "" := hkeys k (by simp)
    have hkeysrest : ∀ x ∈ rest, x ≠ "" := fun x hx =>
      hkeys x (List.mem_cons.mpr (Or.inr hx))
    cases hget : pyDictGet acc (endpointKeyToTemplateLiteralKey k) with
    | some existing =>
      by_cases hex : existing = k
      · have hcond : ¬ (existing ≠ "" ∧ existing ≠ k) := fun hc => hc.2 hex
        have hstep : buildDynamicTemplateIndexGo sources (k :: rest) acc =
            buildDynamicTemplateIndexGo sources rest
              (pyDictInsert acc (endpointKeyToTemplateLiteralKey k) k) := by
          rw [buildDynamicTemplateIndexGo, hget]
          exact if_neg hcond
        rw [hstep]
        refine ih (pyDictInsert acc (endpointKeyToTemplateLiteralKey k) k)
          ?_ hkeysrest ?_
        · intro tk v hv
          by_cases ht : tk = endpointKeyToTemplateLiteralKey k
          · subst ht
            rw [pyDictGet_pyDictInsert_self] at hv
            cases hv
            exact hkne
          · rw [pyDictGet_pyDictInsert_ne _ _ _ _ ht] at hv
            exact haccne tk v hv
        · rcases hdisj with ⟨k0, hk0, v, hv, hvne⟩ | ⟨k1, hk1, k2, hk2, hne, hteq⟩
          · rcases List.mem_cons.mp hk0 with rfl | hk0r
            · rw [hget] at hv
              cases hv
              exact absurd hex hvne
            · by_cases ht : endpointKeyToTemplateLiteralKey k0 =
                  endpointKeyToTemplateLiteralKey k
              · have hkk0 : k ≠ k0 := by
                  intro he
                  subst he
                  rw [hget] at hv
                  cases hv
                  exact hvne hex
                refine Or.inl ⟨k0, hk0r, k, ?_, hkk0⟩
                rw [ht, pyDictGet_pyDictInsert_self]
              · refine Or.inl ⟨k0, hk0r, v, ?_, hvne⟩
                rw [pyDictGet_pyDictInsert_ne _ _ _ _ ht]
                exact hv
          · rcases List.mem_cons.mp hk1 with rfl | hk1r
            · rcases List.mem_cons.mp hk2 with rfl | hk2r
              · exact absurd rfl hne
              · refine Or.inl ⟨k2, hk2r, k1, ?_, hne⟩
                rw [← hteq, pyDictGet_pyDictInsert_self]
            · rcases List.mem_cons.mp hk2 with rfl | hk2r
              · refine Or.inl ⟨k1, hk1r, k2, ?_, fun hh => hne hh.symm⟩
                rw [hteq, pyDictGet_pyDictInsert_self]
              · exact Or.inr ⟨k1, hk1r, k2, hk2r, hne, hteq⟩
      · have hcond : existing ≠ "" ∧ existing ≠ k :=
          ⟨haccne _ _ hget, hex⟩
        refine ⟨⟨endpointKeyToTemplateLiteralKey k, existing, k,
          sourceDisplay sources existing, sourceDisplay sources k⟩, ?_⟩
        rw [buildDynamicTemplateIndexGo, hget]
        exact if_pos hcond
    | none =>
      have hstep : buildDynamicTemplateIndexGo sources (k :: rest) acc =
          buildDynamicTemplateIndexGo sources rest
            (pyDictInsert acc (endpointKeyToTemplateLiteralKey k) k) := by
        rw [buildDynamicTemplateIndexGo, hget]
      rw [hstep]
      refine ih (pyDictInsert acc (endpointKeyToTemplateLiteralKey k) k)
        ?_ hkeysrest ?_
      · intro tk v hv
        by_cases ht : tk = endpointKeyToTemplateLiteralKey k
        · subst ht
          rw [pyDictGet_pyDictInsert_self] at hv
          cases hv
          exact hkne
        · rw [pyDictGet_pyDictInsert_ne _ _ _ _ ht] at hv
          exact haccne tk v hv
      · rcases hdisj with ⟨k0, hk0, v, hv, hvne⟩ | ⟨k1, hk1, k2, hk2, hne, hteq⟩
        · rcases List.mem_cons.mp hk0 with rfl | hk0r
          · rw [hget] at hv
            cases hv
          · by_cases ht : endpointKeyToTemplateLiteralKey k0 =
                endpointKeyToTemplateLiteralKey k
            · rw [ht, hget] at hv
              cases hv
            · refine Or.inl ⟨k0, hk0r, v, ?_, hvne⟩
              rw [pyDictGet_pyDictInsert_ne _ _ _ _ ht]
              exact hv
        · rcases List.mem_cons.mp hk1 with rfl | hk1r
          · rcases List.mem_cons.mp hk2 with rfl | hk2r
            · exact absurd rfl hne
            · refine Or.inl ⟨k2, hk2r, k1, ?_, hne⟩
              rw [← hteq, pyDictGet_pyDictInsert_self]
          · rcases List.mem_cons.mp hk2 with rfl | hk2r
            · refine Or.inl ⟨k1, hk1r, k2, ?_, fun hh => hne hh.symm⟩
              rw [hteq, pyDictGet_pyDictInsert_self]
            · exact Or.inr ⟨k1, hk1r, k2, hk2r, hne, hteq⟩

/-- C5: two distinct dynamic endpoint keys erasing to the same wildcard
shape make `build_dynamic_template_index` abort with a collision error whose
fields name both original keys and both source files; and when the wildcard
shapes of the keys are pairwise distinct, index construction succeeds. -/
theorem dynamic_template_collision_detection :
    (∀ (keys : List String) (sources : List (String × String)) (k1 k2 : String),
      (∀ k ∈ keys, isDynamicEndpointKey k = true) →
      k1 ∈ keys → k2 ∈ keys → k1 ≠ k2 →
      endpointKeyToTemplateLiteralKey k1 = endpointKeyToTemplateLiteralKey k2 →
      ∃ e, buildDynamicTemplateIndex keys sources = Except.error e ∧
        e.existingKey ∈ keys ∧ e.newKey ∈ keys ∧ e.existingKey ≠ e.newKey ∧
        endpointKeyToTemplateLiteralKey e.existingKey = e.templateKey ∧
        endpointKeyToTemplateLiteralKey e.newKey = e.templateKey ∧
        e.existingSourceDisplay = sourceDisplay sources e.existingKey ∧
        e.newSourceDisplay = sourceDisplay sources e.newKey) ∧
    (∀ (keys : List String) (sources : List (String × String)),
      (∀ a ∈ keys, ∀ b ∈ keys,
        endpointKeyToTemplateLiteralKey a = endpointKeyToTemplateLiteralKey b →
          a = b) →
      ∃ m, buildDynamicTemplateIndex keys sources = Except.ok m) := by
  constructor
  · intro keys sources k1 k2 hdyn hk1 hk2 hne hteq
    have hsorted1 : k1 ∈ pySortStable pyStrLe keys :=
      (mem_pySortStable pyStrLe k1 keys).mpr hk1
    have hsorted2 : k2 ∈ pySortStable pyStrLe keys :=
      (mem_pySortStable pyStrLe k2 keys).mpr hk2
    rcases templateIndexGo_error_of_collision sources
        (pySortStable pyStrLe keys) []
        (fun tk v hv => by simp [pyDictGet] at hv)
        (fun x hx => isDynamicEndpointKey_ne_empty x
          (hdyn x ((mem_pySortStable pyStrLe x keys).mp hx)))
        (Or.inr ⟨k1, hsorted1, k2, hsorted2, hne, hteq⟩) with ⟨e, herr⟩
    have hfields := templateIndexGo_error_fields sources keys
      (pySortStable pyStrLe keys) []
      (fun tk v hv => by simp [pyDictGet] at hv)
      (fun x hx => (mem_pySortStable pyStrLe x keys).mp hx) e herr
    exact ⟨e, herr, hfields⟩
  · intro keys sources hinj
    exact templateIndexGo_ok_of_injective sources keys hinj
      (pySortStable pyStrLe keys) []
      (fun tk v hv => by simp [pyDictGet] at hv)
      (fun x hx => (mem_pySortStable pyStrLe x keys).mp hx)

theorem dynamic_template_collision_detection_witness :
    (∃ e, buildDynamicTemplateIndex ["notes.[test].get", "notes.[id].get"]
        [("notes.[test].get", "api/notes.[test].py"),
          ("notes.[id].get", "api/notes.[id].py")] = Except.error e ∧
      e.existingKey ∈ ["notes.[test].get", "notes.[id].get"] ∧
      e.newKey ∈ ["notes.[test].get", "notes.[id].get"] ∧
      e.existingKey ≠ e.newKey ∧
      endpointKeyToTemplateLiteralKey e.existingKey = e.templateKey ∧
      endpointKeyToTemplateLiteralKey e.newKey = e.templateKey ∧
      e.existingSourceDisplay =
        sourceDisplay
          [("notes.[test].get", "api/notes.[test].py"),
            ("notes.[id].get", "api/notes.[id].py")] e.existingKey ∧
      e.newSourceDisplay =
        sourceDisplay
          [("notes.[test].get", "api/notes.[test].py"),
            ("notes.[id].get", "api/notes.[id].py")] e.newKey) ∧
    (∃ m, buildDynamicTemplateIndex ["notes.[id].get", "books.[id].get"]
        [] = Except.ok m) :=
  ⟨dynamic_template_collision_detection.1
      ["notes.[test].get", "notes.[id].get"]
      [("notes.[test].get", "api/notes.[test].py"),
        ("notes.[id].get", "api/notes.[id].py")]
      "notes.[test].get" "notes.[id].get"
      (by decide) (by decide) (by decide) (by decide) (by decide),
    dynamic_template_collision_detection.2
      ["notes.[id].get", "books.[id].get"] [] (by decide)⟩

/-- Python type-annotation expressions, as far as `gen_ts_types.py` inspects
them: names, attribute access, `None`, PEP 604 unions, subscripts with a
plain or tuple slice, and an opaque constructor for any other node, carrying
its `ast.unparse` text. -/
inductive PyExpr
  | name (id : String)
  | attr (value : PyExpr) (attrName : String)
  | constNone
  | binOr (left right : PyExpr)
  | subscript (value : PyExpr) (slice : PyExpr)
  | tupleE (elts : List PyExpr)
  | other (unparsed : String)

mutual

/-- The `ast.unparse` text of an annotation node in this model. -/
def unparseExpr : PyExpr → String
  | PyExpr.name id => id
  | PyExpr.attr v a => unparseExpr v ++ "." ++ a
  | PyExpr.constNone => "None"
  | PyExpr.binOr l r => unparseExpr l ++ " | " ++ unparseExpr r
  | PyExpr.subscript v s => unparseExpr v ++ "[" ++ unparseExpr s ++ "]"
  | PyExpr.tupleE elts => pyJoin ", " (unparseExprList elts)
  | PyExpr.other s => s

/-- Unparse texts of a list of nodes. -/
def unparseExprList : List PyExpr → List String
  | [] => []
  | e :: es => unparseExpr e :: unparseExprList es

end

/-- Embedding of `name_of_ast_expression`: `Name.id` or `Attribute.attr`. -/
def nameOfAstExpression : PyExpr → Option String
  | PyExpr.name id => some id
  | PyExpr.attr _ a => some a
  | _ => none

/-- Embedding of `normalize_annotation_for_signature` (annotation present):
the unparsed text. -/
def normalizeAnnotationForSignature (e : PyExpr) : String :=
  unparseExpr e

/-- A top-level `@dataclass` class definition, as the scanner sees it: its
name, base-class expressions, annotated fields in body order
(`collect_dataclass_fields`), and source line. -/
structure ClassDef where
  name : String
  bases : List PyExpr
  fields : List (String × PyExpr)
  lineno : Nat

/-- Embedding of `collect_dataclass_base_names`: plain names, attribute
names, and the base of a subscripted base expression. -/
def collectDataclassBaseNames (c : ClassDef) : List String :=
  c.bases.filterMap (fun b =>
    match nameOfAstExpression b with
    | some n => some n
    | none =>
      match b with
      | PyExpr.subscript v _ => nameOfAstExpression v
      | _ => none)

/-- Embedding of `build_dataclass_shape_signature`: a `__bases__` entry
joining the base names (when any), plus one `(field, unparsed annotation)`
pair per own annotated field, stably sorted by first component. -/
def buildDataclassShapeSignature (c : ClassDef) : List (String × String) :=
  let baseNames := collectDataclassBaseNames c
  let basePairs :=
    if baseNames ≠ [] then [("__bases__", pyJoin "|" baseNames)] else []
  let fieldPairs :=
    c.fields.map (fun f => (f.1, normalizeAnnotationForSignature f.2))
  pySortStable (fun a b => pyStrLe a.1 b.1) (basePairs ++ fieldPairs)

/-- Embedding of `DataclassMetadata`. -/
structure DataclassMetadata where
  className : String
  classNode : ClassDef
  sourceFile : String

/-- Embedding of a parsed source file as far as the symbol index reads it:
its path, its top-level dataclass definitions in order, and its type
aliases in declaration order. -/
structure ParsedPythonFile where
  path : String
  dataclassNodes : List ClassDef
  aliases : List (String × PyExpr)

/-- The basename of a file path. -/
def pathBaseName (p : String) : String :=
  (pySplitOnChar '/' p).getLastD p

/-- Embedding of `SymbolIndex`. -/
structure SymbolIndex where
  dataclassesByName : List (String × DataclassMetadata)
  aliasesByName : List (String × PyExpr)
  dataclassSources : List (String × String)
  aliasSources : List (String × String)
  dataclassSignaturesByName : List (String × List (String × String))
  dataclassDuplicateSourcesByName : List (String × List String)

/-- The empty symbol index. -/
def emptySymbolIndex : SymbolIndex :=
  ⟨[], [], [], [], [], []⟩

/-- Structured form of the `RuntimeError`s raised by `_build_symbol_index`;
each constructor carries exactly what the corresponding message interpolates. -/
inductive SymbolIndexError
  | dataclassShapeCollision (className : String) (existingSource : String)
      (existingLine : Nat) (existingSignature : List (String × String))
      (newSource : String) (newLine : Nat)
      (newSignature : List (String × String))
  | dataclassOverAlias (className : String) (aliasSource newSource : String)
  | aliasCollision (aliasName : String) (previousSource newSource : String)
  | aliasOverDataclass (aliasName : String)
      (dataclassSource newSource : String)
deriving DecidableEq, Repr

/-- Embedding of the per-dataclass body of `_build_symbol_index`: a repeated
name is accepted (and recorded as a duplicate) exactly when the shape
signatures agree, rejected with both source locations and both signatures
otherwise; a fresh name must not collide with an alias. -/
def processDataclassNode (idx : SymbolIndex) (filePath : String)
    (c : ClassDef) : Except SymbolIndexError SymbolIndex :=
  match pyDictGet idx.dataclassesByName c.name with
  | some existingMeta =>
    let existingSource := (pyDictGet idx.dataclassSources c.name).getD ""
    let newSignature := buildDataclassShapeSignature c
    let existingSignature :=
      match pyDictGet idx.dataclassSignaturesByName c.name with
      | some s => s
      | none => buildDataclassShapeSignature existingMeta.classNode
    if existingSignature = newSignature then
      Except.ok
        { idx with
          dataclassSignaturesByName :=
            pyDictInsert idx.dataclassSignaturesByName c.name
              existingSignature,
          dataclassDuplicateSourcesByName :=
            pyDictInsert idx.dataclassDuplicateSourcesByName c.name
              (((pyDictGet idx.dataclassDuplicateSourcesByName c.name).getD
                []) ++ [filePath]) }
    else
      Except.error
        (SymbolIndexError.dataclassShapeCollision c.name existingSource
          existingMeta.classNode.lineno existingSignature filePath c.lineno
          newSignature)
  | none =>
    match pyDictGet idx.aliasesByName c.name with
    | some _ =>
      Except.error
        (SymbolIndexError.dataclassOverAlias c.name
          ((pyDictGet idx.aliasSources c.name).getD "") filePath)
    | none =>
      Except.ok
        { idx with
          dataclassesByName :=
            pyDictInsert idx.dataclassesByName c.name ⟨c.name, c, filePath⟩,
          dataclassSources :=
            pyDictInsert idx.dataclassSources c.name filePath }

/-- Embedding of the per-alias body of `_build_symbol_index`. -/
def processAliasDef (idx : SymbolIndex) (filePath : String)
    (a : String × PyExpr) : Except SymbolIndexError SymbolIndex :=
  match pyDictGet idx.aliasesByName a.1 with
  | some _ =>
    Except.error
      (SymbolIndexError.aliasCollision a.1
        ((pyDictGet idx.aliasSources a.1).getD "") filePath)
  | none =>
    match pyDictGet idx.dataclassesByName a.1 with
    | some _ =>
      Except.error
        (SymbolIndexError.aliasOverDataclass a.1
          ((pyDictGet idx.dataclassSources a.1).getD "") filePath)
    | none =>
      Except.ok
        { idx with
          aliasesByName := pyDictInsert idx.aliasesByName a.1 a.2,
          aliasSources := pyDictInsert idx.aliasSources a.1 filePath }

/-- Process the dataclasses of one file in order. -/
def processDataclassList (filePath : String) :
    List ClassDef → SymbolIndex → Except SymbolIndexError SymbolIndex
  | [], idx => Except.ok idx
  | c :: rest, idx =>
    match processDataclassNode idx filePath c with
    | Except.error e => Except.error e
    | Except.ok idx2 => processDataclassList filePath rest idx2

/-- Process the aliases of one file in order. -/
def processAliasList (filePath : String) :
    List (String × PyExpr) → SymbolIndex → Except SymbolIndexError SymbolIndex
  | [], idx => Except.ok idx
  | a :: rest, idx =>
    match processAliasDef idx filePath a with
    | Except.error e => Except.error e
    | Except.ok idx2 => processAliasList filePath rest idx2

/-- The dict built by `collect_dataclass_class_nodes`: top-level dataclasses
keyed by name, first position kept and value overwritten on a same-file
duplicate. -/
def dataclassNodesByName (cs : List ClassDef) : List (String × ClassDef) :=
  cs.foldl (fun d c => pyDictInsert d c.name c) []

/-- Process one parsed file (`_build_symbol_index` loop body):
`__init__.py` files are skipped, then the file's dataclass dict and alias
dict are folded in. -/
def processParsedFile (idx : SymbolIndex) (file : ParsedPythonFile) :
    Except SymbolIndexError SymbolIndex :=
  if pathBaseName file.path = "__init__.py" then Except.ok idx
  else
    match processDataclassList file.path
        ((dataclassNodesByName file.dataclassNodes).map Prod.snd) idx with
    | Except.error e => Except.error e
    | Except.ok idx2 =>
      processAliasList file.path (pyDictOfPairs file.aliases) idx2

/-- Fold of `_build_symbol_index` over the parsed files. -/
def buildSymbolIndexGo :
    List ParsedPythonFile → SymbolIndex → Except SymbolIndexError SymbolIndex
  | [], idx => Except.ok idx
  | f :: rest, idx =>
    match processParsedFile idx f with
    | Except.error e => Except.error e
    | Except.ok idx2 => buildSymbolIndexGo rest idx2

/-- Embedding of `Pipeline._build_symbol_index`. -/
def buildSymbolIndex (files : List ParsedPythonFile) :
    Except SymbolIndexError SymbolIndex :=
  buildSymbolIndexGo files emptySymbolIndex

/-- C6 amended: for two scanned files each declaring a dataclass of the same
name, index construction accepts the duplicate silently exactly when the
shape signatures of `build_dataclass_shape_signature` — own annotated fields
plus the base-class name list, not the flattened inherited field chain —
are identical; otherwise it fails with a diagnostic carrying both source
locations and both signatures. -/
theorem symbol_index_duplicate_shape_acceptance (p1 p2 : String)
    (c1 c2 : ClassDef) (hname : c1.name = c2.name)
    (hskip1 : pathBaseName p1 ≠ "__init__.py")
    (hskip2 : pathBaseName p2 ≠ "__init__.py") :
    ((∃ idx, buildSymbolIndex [⟨p1, [c1], []⟩, ⟨p2, [c2], []⟩] = Except.ok idx)
        ↔ buildDataclassShapeSignature c1 = buildDataclassShapeSignature c2) ∧
    (buildDataclassShapeSignature c1 ≠ buildDataclassShapeSignature c2 →
      buildSymbolIndex [⟨p1, [c1], []⟩, ⟨p2, [c2], []⟩] =
        Except.error (SymbolIndexError.dataclassShapeCollision c2.name p1
          c1.lineno (buildDataclassShapeSignature c1) p2 c2.lineno
          (buildDataclassShapeSignature c2))) := by
  have hidx1 : processParsedFile emptySymbolIndex ⟨p1, [c1], []⟩ =
      Except.ok ⟨[(c1.name, ⟨c1.name, c1, p1⟩)], [], [(c1.name, p1)], [], [],
        []⟩ := by
    simp [processParsedFile, hskip1, dataclassNodesByName, pyDictInsert,
      processDataclassList, processDataclassNode, pyDictGet, emptySymbolIndex,
      processAliasList, pyDictOfPairs]
  have hstep1 : buildSymbolIndexGo [⟨p1, [c1], []⟩, ⟨p2, [c2], []⟩]
      emptySymbolIndex =
      buildSymbolIndexGo [⟨p2, [c2], []⟩]
        ⟨[(c1.name, ⟨c1.name, c1, p1⟩)], [], [(c1.name, p1)], [], [], []⟩ := by
    rw [buildSymbolIndexGo, hidx1]
  by_cases hsig : buildDataclassShapeSignature c1 = buildDataclassShapeSignature c2
  · have hfile2 : processParsedFile
        ⟨[(c1.name, ⟨c1.name, c1, p1⟩)], [], [(c1.name, p1)], [], [], []⟩
        ⟨p2, [c2], []⟩ =
        Except.ok ⟨[(c2.name, ⟨c2.name, c1, p1⟩)], [], [(c2.name, p1)], [],
          [(c2.name, buildDataclassShapeSignature c1)], [(c2.name, [p2])]⟩ := by
      simp [processParsedFile, hskip2, dataclassNodesByName, pyDictInsert,
        processDataclassList, processDataclassNode, pyDictGet, hname, hsig,
        processAliasList, pyDictOfPairs]
    have hall : buildSymbolIndex [⟨p1, [c1], []⟩, ⟨p2, [c2], []⟩] =
        Except.ok ⟨[(c2.name, ⟨c2.name, c1, p1⟩)], [], [(c2.name, p1)], [],
          [(c2.name, buildDataclassShapeSignature c1)], [(c2.name, [p2])]⟩ := by
      rw [buildSymbolIndex, hstep1, buildSymbolIndexGo, hfile2]
      rfl
    refine ⟨⟨fun _ => hsig, fun _ => ⟨_, hall⟩⟩, fun hc => absurd hsig hc⟩
  · have hfile2 : processParsedFile
        ⟨[(c1.name, ⟨c1.name, c1, p1⟩)], [], [(c1.name, p1)], [], [], []⟩
        ⟨p2, [c2], []⟩ =
        Except.error (SymbolIndexError.dataclassShapeCollision c2.name p1
          c1.lineno (buildDataclassShapeSignature c1) p2 c2.lineno
          (buildDataclassShapeSignature c2)) := by
      simp [processParsedFile, hskip2, dataclassNodesByName, pyDictInsert,
        processDataclassList, processDataclassNode, pyDictGet, hname, hsig,
        processAliasList, pyDictOfPairs]
    have hall : buildSymbolIndex [⟨p1, [c1], []⟩, ⟨p2, [c2], []⟩] =
        Except.error (SymbolIndexError.dataclassShapeCollision c2.name p1
          c1.lineno (buildDataclassShapeSignature c1) p2 c2.lineno
          (buildDataclassShapeSignature c2)) := by
      rw [buildSymbolIndex, hstep1, buildSymbolIndexGo, hfile2]
    constructor
    · constructor
      · rintro ⟨idx, hidx⟩
        rw [hall] at hidx
        cases hidx
      · intro hc
        exact absurd hc hsig
    · intro _
      exact hall

/-- Embedding of `add_fields` inside
`collect_dataclass_fields_including_bases`: field order keeps the first
occurrence, the annotation of a repeated name is overwritten. -/
def addFields (acc : List (String × PyExpr))
    (fieldDefs : List (String × PyExpr)) : List (String × PyExpr) :=
  fieldDefs.foldl (fun d f => pyDictInsert d f.1 f.2) acc

theorem pyDictGet_mem_keys {α : Type} (d : List (String × α)) (k : String)
    (v : α) (h : pyDictGet d k = some v) : k ∈ d.map Prod.fst := by
  induction d with
  | nil => simp [pyDictGet] at h
  | cons kv rest ih =>
    obtain ⟨k0, v0⟩ := kv
    by_cases h0 : k0 = k
    · subst h0
      simp
    · rw [pyDictGet, if_neg h0] at h
      simp [ih h]

theorem filter_length_mono (l : List String) (p q : String → Bool)
    (himp : ∀ x, p x = true → q x = true) :
    (l.filter p).length ≤ (l.filter q).length := by
  induction l with
  | nil => simp
  | cons x xs ih =>
    by_cases hp : p x = true
    · have hq := himp x hp
      simp [List.filter, hp, hq]
      exact ih
    · have hp2 : p x = false := by
        cases hpx : p x
        · rfl
        · exact absurd hpx hp
      cases hq : q x
      · simp [List.filter, hp2, hq]
        exact ih
      · simp [List.filter, hp2, hq]
        exact Nat.le_succ_of_le ih

/-- Membership complement as a Bool predicate, used by the termination
measure of the base-class walk. -/
def notMemB (res : List String) (n : String) : Bool :=
  decide (n ∉ res)

theorem filter_notMemB_cons_lt (l : List String) (a : String)
    (res : List String) (ha : a ∈ l) (hnot : a ∉ res) :
    (l.filter (notMemB (a :: res))).length <
      (l.filter (notMemB res)).length := by
  induction l with
  | nil => simp at ha
  | cons x xs ih =>
    rw [List.filter_cons, List.filter_cons]
    by_cases hxa : x = a
    · subst hxa
      rw [show notMemB (x :: res) x = false by simp [notMemB]]
      rw [show notMemB res x = true by simp [notMemB, hnot]]
      have hle := filter_length_mono xs (notMemB (x :: res)) (notMemB res)
        (fun y hy => by
          simp [notMemB] at hy ⊢
          exact hy.2)
      simp
      omega
    · have ha2 : a ∈ xs := by
        rcases List.mem_cons.mp ha with h | h
        · exact absurd h.symm hxa
        · exact h
      by_cases hxres : x ∈ res
      · rw [show notMemB (a :: res) x = false by simp [notMemB, hxres]]
        rw [show notMemB res x = false by simp [notMemB, hxres]]
        simp only [Bool.false_eq_true, if_false]
        exact ih ha2
      · rw [show notMemB (a :: res) x = true by simp [notMemB, hxa, hxres]]
        rw [show notMemB res x = true by simp [notMemB, hxres]]
        simp only [if_true]
        simpa using ih ha2

/-- Count of index names not currently being resolved; the termination
measure of the base-class walk (each recursive descent marks one more index
name as resolving). -/
def remainingBaseFuel (idx : List (String × DataclassMetadata))
    (resolving : List String) : Nat :=
  ((idx.map Prod.fst).filter (notMemB resolving)).length

theorem remainingBaseFuel_lt (idx : List (String × DataclassMetadata))
    (resolving : List String) (b : String) (meta : DataclassMetadata)
    (hget : pyDictGet idx b = some meta) (hnot : b ∉ resolving) :
    remainingBaseFuel idx (b :: resolving) < remainingBaseFuel idx resolving :=
  filter_notMemB_cons_lt (idx.map Prod.fst) b resolving
    (pyDictGet_mem_keys idx b meta hget) hnot

/-- Embedding of the `visit` walk inside
`collect_dataclass_fields_including_bases`: depth-first over base names
resolved through the symbol index, guarded by the resolving set, base
fields merged on the way back up. -/
def visitBaseFields (idx : List (String × DataclassMetadata)) :
    List String → List String → List (String × PyExpr) →
      List (String × PyExpr)
  | [], _, acc => acc
  | b :: rest, resolving, acc =>
    match hget : pyDictGet idx b with
    | none => visitBaseFields idx rest resolving acc
    | some meta =>
      if hres : b ∈ resolving then visitBaseFields idx rest resolving acc
      else
        visitBaseFields idx rest resolving
          (addFields
            (visitBaseFields idx (collectDataclassBaseNames meta.classNode)
              (b :: resolving) acc)
            meta.classNode.fields)
termination_by bases resolving _ => (remainingBaseFuel idx resolving, bases.length)
decreasing_by
  all_goals first
    | exact Prod.Lex.left _ _
        (remainingBaseFuel_lt idx resolving b meta hget hres)
    | exact Prod.Lex.right _ (by simp)

/-- Embedding of `collect_dataclass_fields_including_bases`. -/
def collectDataclassFieldsIncludingBases
    (idx : List (String × DataclassMetadata)) (node : ClassDef) :
    List (String × PyExpr) :=
  addFields (visitBaseFields idx (collectDataclassBaseNames node) [] [])
    node.fields

/-- Modelled from the spec: the signature the claim compares — "field names
plus normalized type text, including the inherited chain" — combining the
repository's own `collect_dataclass_fields_including_bases` with the
normalization and name ordering of `build_dataclass_shape_signature`. -/
def claimedInheritedFieldSignature (idx : List (String × DataclassMetadata))
    (node : ClassDef) : List (String × String) :=
  pySortStable (fun a b => pyStrLe a.1 b.1)
    ((collectDataclassFieldsIncludingBases idx node).map
      (fun f => (f.1, normalizeAnnotationForSignature f.2)))

/-- Record `A { x: int }` declared in the first example file. -/
def exClassA : ClassDef := ⟨"A", [], [("x", PyExpr.name "int")], 1⟩

/-- Record `D(A)` with no own fields, declared next to `A`. -/
def exClassDA : ClassDef := ⟨"D", [PyExpr.name "A"], [], 2⟩

/-- Record `B { x: int }` declared in the second example file. -/
def exClassB : ClassDef := ⟨"B", [], [("x", PyExpr.name "int")], 1⟩

/-- Record `D(B)` with no own fields, declared next to `B`. -/
def exClassDB : ClassDef := ⟨"D", [PyExpr.name "B"], [], 2⟩

/-- First example file `a.py`: `A` and `D(A)`. -/
def exFileA : ParsedPythonFile := ⟨"a.py", [exClassA, exClassDA], []⟩

/-- Second example file `b.py`: `B` and `D(B)`. -/
def exFileB : ParsedPythonFile := ⟨"b.py", [exClassB, exClassDB], []⟩

/-- C6 counterexample: the two `D` declarations have identical inherited
field signatures in the claim's sense — both flatten to `x: int`, each
checked against the index its own file builds — yet scanning both files
together fails with a shape collision, because the code's signature compares
base-class names (`A` vs `B`), not the inherited field chain. -/
theorem symbol_index_inherited_sig_counterexample :
    buildSymbolIndex [exFileA] =
      Except.ok ⟨[("A", ⟨"A", exClassA, "a.py"⟩),
        ("D", ⟨"D", exClassDA, "a.py"⟩)], [],
        [("A", "a.py"), ("D", "a.py")], [], [], []⟩ ∧
    buildSymbolIndex [exFileB] =
      Except.ok ⟨[("B", ⟨"B", exClassB, "b.py"⟩),
        ("D", ⟨"D", exClassDB, "b.py"⟩)], [],
        [("B", "b.py"), ("D", "b.py")], [], [], []⟩ ∧
    claimedInheritedFieldSignature
      [("A", ⟨"A", exClassA, "a.py"⟩), ("D", ⟨"D", exClassDA, "a.py"⟩)]
      exClassDA = [("x", "int")] ∧
    claimedInheritedFieldSignature
      [("B", ⟨"B", exClassB, "b.py"⟩), ("D", ⟨"D", exClassDB, "b.py"⟩)]
      exClassDB = [("x", "int")] ∧
    buildSymbolIndex [exFileA, exFileB] =
      Except.error (SymbolIndexError.dataclassShapeCollision "D" "a.py" 2
        [("__bases__", "A")] "b.py" 2 [("__bases__", "B")]) := by
  refine ⟨rfl, rfl, ?_, ?_, rfl⟩
  · simp [claimedInheritedFieldSignature, collectDataclassFieldsIncludingBases,
      visitBaseFields, addFields, collectDataclassBaseNames,
      nameOfAstExpression, pyDictGet, pyDictInsert, exClassA, exClassDA,
      normalizeAnnotationForSignature, unparseExpr, pySortStable,
      pyOrderedInsert]
  · simp [claimedInheritedFieldSignature, collectDataclassFieldsIncludingBases,
      visitBaseFields, addFields, collectDataclassBaseNames,
      nameOfAstExpression, pyDictGet, pyDictInsert, exClassB, exClassDB,
      normalizeAnnotationForSignature, unparseExpr, pySortStable,
      pyOrderedInsert]

theorem symbol_index_duplicate_shape_acceptance_witness :
    ((⟨"N", [], [("x", PyExpr.name "int")], 1⟩ : ClassDef).name =
      (⟨"N", [], [("x", PyExpr.name "int")], 1⟩ : ClassDef).name ∧
      pathBaseName "a.py" ≠ "__init__.py" ∧
      pathBaseName "b.py" ≠ "__init__.py") ∧
    (∃ idx, buildSymbolIndex
      [⟨"a.py", [⟨"N", [], [("x", PyExpr.name "int")], 1⟩], []⟩,
        ⟨"b.py", [⟨"N", [], [("x", PyExpr.name "int")], 1⟩], []⟩] =
      Except.ok idx) ∧
    buildSymbolIndex
      [⟨"a.py", [⟨"N", [], [("x", PyExpr.name "int")], 1⟩], []⟩,
        ⟨"b.py", [⟨"N", [], [("x", PyExpr.name "str")], 3⟩], []⟩] =
      Except.error (SymbolIndexError.dataclassShapeCollision "N" "a.py" 1
        (buildDataclassShapeSignature ⟨"N", [], [("x", PyExpr.name "int")], 1⟩)
        "b.py" 3
        (buildDataclassShapeSignature
          ⟨"N", [], [("x", PyExpr.name "str")], 3⟩)) :=
  ⟨⟨rfl, by decide, by decide⟩,
    (symbol_index_duplicate_shape_acceptance "a.py" "b.py"
      ⟨"N", [], [("x", PyExpr.name "int")], 1⟩
      ⟨"N", [], [("x", PyExpr.name "int")], 1⟩ rfl (by decide)
      (by decide)).1.mpr rfl,
    (symbol_index_duplicate_shape_acceptance "a.py" "b.py"
      ⟨"N", [], [("x", PyExpr.name "int")], 1⟩
      ⟨"N", [], [("x", PyExpr.name "str")], 3⟩ rfl (by decide)
      (by decide)).2 (by decide)⟩

/-- Bool test for a substring occurrence (Python `sub in s`). -/
def containsSubList : List Char → List Char → Bool
  | sub, [] => sub.isPrefixOf []
  | sub, c :: rest => sub.isPrefixOf (c :: rest) || containsSubList sub rest

/-- Python `sub in s`. -/
def pyContains (s sub : String) : Bool :=
  containsSubList sub.toList s.toList

/-- Python `s.replace(sub, repl)`: non-overlapping left-to-right replacement
(an empty pattern, never used by the generator's templates, replaces
nothing here). -/
def replaceSubList (sub repl : List Char) : List Char → List Char
  | [] => []
  | c :: rest =>
    if h : sub ≠ [] ∧ sub.isPrefixOf (c :: rest) then
      repl ++ replaceSubList sub repl ((c :: rest).drop sub.length)
    else c :: replaceSubList sub repl rest
termination_by l => l.length
decreasing_by
  · have hlen : 1 ≤ sub.length := by
      cases sub with
      | nil => exact absurd rfl h.1
      | cons _ _ => simp
    simp [List.length_drop]
    omega
  · simp

/-- Python `s.replace(sub, repl)` on strings. -/
def pyReplace (s sub repl : String) : String :=
  String.mk (replaceSubList sub.toList repl.toList s.toList)

/-- The slice of the configuration consumed by the type translator:
primitive map, custom generic templates, typing-container aliases, and the
passthrough-generic module names. -/
structure TypeScriptGeneratorConfig where
  primitiveTypeMap : List (String × String)
  genericTypeMap : List (String × (List String × String))
  typingContainerAliases : List (String × String)
  passthroughGenericModules : List String

/-- Default configuration values of `TypeScriptGeneratorConfig`. -/
def defaultTypeScriptGeneratorConfig : TypeScriptGeneratorConfig :=
  { primitiveTypeMap :=
      [("str", "string"), ("int", "number"), ("float", "number"),
        ("bool", "boolean"), ("None", "null"), ("Any", "any"),
        ("object", "unknown"), ("UUID", "string")]
    genericTypeMap := []
    typingContainerAliases :=
      [("List", "list"), ("Sequence", "list"), ("Iterable", "list"),
        ("Set", "set"), ("Dict", "dict"), ("Mapping", "dict"),
        ("Optional", "optional"), ("Union", "union"), ("Tuple", "tuple")]
    passthroughGenericModules := ["db"] }

/-- Embedding of `PythonToTypeScriptTypeTranslator`'s inputs: configuration,
known dataclass names, and the alias-definition table. -/
structure TypeTranslator where
  config : TypeScriptGeneratorConfig
  knownDataclassNames : List String
  aliasDefinitions : List (String × PyExpr)

/-- Generic arguments of a subscript: the elements of a tuple slice, else
the slice itself. -/
def sliceArguments : PyExpr → List PyExpr
  | PyExpr.tupleE es => es
  | s => [s]

theorem sizeOf_sliceArguments_lt (slice a : PyExpr)
    (ha : a ∈ sliceArguments slice) : sizeOf a < 1 + sizeOf slice := by
  cases slice with
  | tupleE es =>
    have h := List.sizeOf_lt_of_mem (show a ∈ es by simpa [sliceArguments] using ha)
    simp
    omega
  | name id =>
    simp [sliceArguments] at ha
    subst ha
    simp
  | attr v s =>
    simp [sliceArguments] at ha
    subst ha
    simp
  | constNone =>
    simp [sliceArguments] at ha
    subst ha
    simp
  | binOr l r =>
    simp [sliceArguments] at ha
    subst ha
    simp
  | subscript v s =>
    simp [sliceArguments] at ha
    subst ha
    simp
  | other s =>
    simp [sliceArguments] at ha
    subst ha
    simp

/-- Alias-table fuel for the translator: the number of alias names not yet
in the resolving set.  Inlining an alias strictly decreases it. -/
def remainingAliasFuel (defs : List (String × PyExpr))
    (resolving : List String) : Nat :=
  ((defs.map Prod.fst).filter (notMemB resolving)).length

theorem remainingAliasFuel_lt (defs : List (String × PyExpr))
    (resolving : List String) (id : String) (e : PyExpr)
    (hget : pyDictGet defs id = some e) (hnot : id ∉ resolving) :
    remainingAliasFuel defs (id :: resolving) <
      remainingAliasFuel defs resolving :=
  filter_notMemB_cons_lt (defs.map Prod.fst) id resolving
    (pyDictGet_mem_keys defs id e hget) hnot

/-- Indexed template placeholders: `{T1}`, `{T2}`, ... replaced in order. -/
def applyIndexedTemplateArgs : String → List String → Nat → String
  | rendered, [], _ => rendered
  | rendered, a :: rest, i =>
    applyIndexedTemplateArgs
      (pyReplace rendered ("\x7bT" ++ toString i ++ "\x7d") a) rest (i + 1)

/-- Named template placeholders: `{param}` replaced per declared name. -/
def applyNamedTemplateArgs : String → List (String × String) → String
  | rendered, [] => rendered
  | rendered, (p, a) :: rest =>
    applyNamedTemplateArgs (pyReplace rendered ("\x7b" ++ p ++ "\x7d") a) rest

/-- Embedding of `PythonToTypeScriptTypeTranslator.to_typescript_type`.
The mutable referenced-name sets of the Python method are write-only there
and do not influence the returned text, so they are omitted; the
`resolving_alias_names` set is threaded explicitly (its add/remove pairs
are balanced in the source, so pure passing is faithful). -/
def toTypescriptType (tr : TypeTranslator) :
    PyExpr → Bool → List String → String
  | PyExpr.binOr l r, preserve, resolving =>
    toTypescriptType tr l preserve resolving ++ " | " ++
      toTypescriptType tr r preserve resolving
  | PyExpr.name id, preserve, resolving =>
    match halias : pyDictGet tr.aliasDefinitions id with
    | some defExpr =>
      if preserve then id
      else if hres : id ∈ resolving then "unknown"
      else toTypescriptType tr defExpr false (id :: resolving)
    | none =>
      if id ∈ tr.knownDataclassNames then id
      else (pyDictGet tr.config.primitiveTypeMap id).getD id
  | PyExpr.constNone, _, _ => "null"
  | PyExpr.subscript value slice, preserve, resolving =>
    let rawBase := (nameOfAstExpression value).getD "unknown"
    let genericBaseName :=
      (pyDictGet tr.config.typingContainerAliases rawBase).getD rawBase
    let argTypes := (sliceArguments slice).attach.map
      (fun a => toTypescriptType tr a.1 preserve resolving)
    let fromTemplate :=
      match pyDictGet tr.config.genericTypeMap genericBaseName with
      | some (paramNames, template) =>
        if argTypes.length = paramNames.length then
          some (applyNamedTemplateArgs
            (applyIndexedTemplateArgs
              (if pyContains template "\x7bT\x7d" then
                pyReplace template "\x7bT\x7d" (argTypes.headD "unknown")
              else template)
              argTypes 1)
            (paramNames.zip argTypes))
        else none
      | none => none
    match fromTemplate with
    | some rendered => rendered
    | none =>
      if genericBaseName = "list" ∨ genericBaseName = "set" ∨
          genericBaseName = "Sequence" ∨ genericBaseName = "Iterable" then
        argTypes.headD "unknown" ++ "[]"
      else if genericBaseName = "dict" then
        let keyType := argTypes.getD 0 "string"
        let valueType := argTypes.getD 1 "unknown"
        let keyTypeCoerced :=
          if keyType ≠ "string" ∧ keyType ≠ "number" then "string"
          else keyType
        "Record<" ++ keyTypeCoerced ++ ", " ++ valueType ++ ">"
      else if genericBaseName = "tuple" then
        "[" ++ pyJoin ", " argTypes ++ "]"
      else if genericBaseName = "optional" then
        argTypes.headD "unknown" ++ " | null"
      else if genericBaseName = "union" then
        let unionTypes := pyJoin " | " argTypes
        if unionTypes = "" then "unknown" else unionTypes
      else genericBaseName ++ "<" ++ pyJoin ", " argTypes ++ ">"
  | node, _, _ =>
    (pyDictGet tr.config.primitiveTypeMap (unparseExpr node)).getD "unknown"
termination_by node preserve resolving =>
  (remainingAliasFuel tr.aliasDefinitions resolving, sizeOf node)
decreasing_by
  all_goals first
    | exact Prod.Lex.left _ _ (remainingAliasFuel_lt _ _ _ _ halias hres)
    | (apply Prod.Lex.right
       simp
       done)
    | (apply Prod.Lex.right
       simp
       omega)
    | (apply Prod.Lex.right
       have hlt := sizeOf_sliceArguments_lt slice a.1 a.2
       simp
       omega)

/-- A translator over a mutually recursive alias table
(`type A = B`, `type B = A`). -/
def exCyclicTranslator : TypeTranslator :=
  ⟨defaultTypeScriptGeneratorConfig, [],
    [("A", PyExpr.name "B"), ("B", PyExpr.name "A")]⟩

/-- C9: `to_typescript_type` is total — it is accepted here with the
termination measure "alias names not yet being resolved, then expression
size", which covers self-referential and mutually recursive alias tables —
and while inlining with symbol preservation off, a reference back to an
alias name currently being resolved returns the opaque `unknown` marker
instead of recursing; on the concrete cyclic table `A = B, B = A`,
translating `A` terminates with `unknown`. -/
theorem alias_cycle_guard (tr : TypeTranslator) (a : String) (e : PyExpr)
    (resolving : List String)
    (halias : pyDictGet tr.aliasDefinitions a = some e)
    (hres : a ∈ resolving) :
    toTypescriptType tr (PyExpr.name a) false resolving = "unknown" ∧
    toTypescriptType exCyclicTranslator (PyExpr.name "A") false [] =
      "unknown" := by
  constructor
  · rw [toTypescriptType, halias]
    simp [hres]
  · rw [toTypescriptType]
    simp [exCyclicTranslator, pyDictGet]
    rw [toTypescriptType]
    simp [exCyclicTranslator, pyDictGet]
    rw [toTypescriptType]
    simp [exCyclicTranslator, pyDictGet]

theorem alias_cycle_guard_witness :
    (pyDictGet exCyclicTranslator.aliasDefinitions "A" =
      some (PyExpr.name "B") ∧ "A" ∈ ["A"]) ∧
    (toTypescriptType exCyclicTranslator (PyExpr.name "A") false ["A"] =
        "unknown" ∧
      toTypescriptType exCyclicTranslator (PyExpr.name "A") false [] =
        "unknown") :=
  ⟨⟨rfl, by decide⟩,
    alias_cycle_guard exCyclicTranslator "A" (PyExpr.name "B") ["A"] rfl
      (by decide)⟩
